import Mathlib

/-!
# Verification of the confbundler core

A shallow embedding, in Lean 4, of the core of the `confbundler` project
(schema-driven YAML decoder, bundle store & merge, resolution pipeline and
tar archive encoder), together with proofs and refutations of the
specification claims.

Conventions of the embedding:
* Python `dict`s (insertion ordered, unique keys, last write wins) become
  association lists (`List (κ × v)`) manipulated only through `dlookup`,
  `dinsert` and `dupdate`, which reproduce `d[k]`, `d[k] = v` and
  `d.update(other)`.
* Machine integers, sizes and timestamps become `Int` (Python integers are
  unbounded, so no wrap-around modelling is needed).
* Fallible code returns `Except PyErr`; `PyErr.ctor` models
  `yaml.constructor.ConstructorError` (the catchable "fatal decode error"
  hierarchy) while `PyErr.py` models every other Python exception
  (`TypeError`, `ValueError`, `RuntimeError`, ...), which the bundle
  assembler does *not* catch.
* External collaborators (the host filesystem: `lstat`, `readlink`,
  `glob`, opening a file) are abstracted as a `HostFS` record of functions,
  as the spec treats them as interface-level collaborators.
-/

/-! ## Python dictionaries as insertion-ordered association lists -/

section Dict

variable {κ : Type _} {v : Type _} [DecidableEq κ]

/-- `d[k]` — the binding of `k` (first one; a Python dict holds each key
once, so on well-formed dicts this is the only one). -/
def dlookup (k : κ) : List (κ × v) → Option v
  | [] => none
  | (k', v') :: rest => if k' = k then some v' else dlookup k rest

/-- Key membership of an association list (`k in d`). -/
def dcontains (k : κ) (d : List (κ × v)) : Bool :=
  d.any (fun p => p.1 = k)

/-- `d[k] = val` — overwrite in place if the key exists, else append,
exactly as a Python `dict` keeps insertion order. On well-formed dicts
(each key held once) replacing the first occurrence is replacement of the
occurrence. -/
def dinsert (k : κ) (val : v) : List (κ × v) → List (κ × v)
  | [] => [(k, val)]
  | p :: rest => if p.1 = k then (k, val) :: rest else p :: dinsert k val rest

/-- `d.update(other)` — fold `other`'s bindings into `d`. -/
def dupdate (d other : List (κ × v)) : List (κ × v) :=
  other.foldl (fun acc p => dinsert p.1 p.2 acc) d

/-- `d.pop(k)` (the removal part); a Python dict holds each key once, and
removal of every binding of `k` agrees with that on well-formed dicts. -/
def dremove (k : κ) (d : List (κ × v)) : List (κ × v) :=
  d.filter (fun p => ¬ p.1 = k)

/-- The dict invariant: within one mapping, keys are unique. -/
def DictWF (d : List (κ × v)) : Prop :=
  (d.map Prod.fst).Nodup

theorem dlookup_eq_none_of_not_mem {k : κ} {d : List (κ × v)}
    (h : k ∉ d.map Prod.fst) : dlookup k d = none := by
  induction d with
  | nil => rfl
  | cons p rest ih =>
    simp only [List.map_cons, List.mem_cons, not_or] at h
    have : ¬ p.1 = k := fun e => h.1 e.symm
    simp only [dlookup, if_neg this, ih h.2]

theorem dcontains_iff_mem {k : κ} {d : List (κ × v)} :
    dcontains k d = true ↔ k ∈ d.map Prod.fst := by
  simp only [dcontains, List.any_eq_true, List.mem_map, decide_eq_true_eq]

theorem map_fst_dinsert (k : κ) (val : v) (d : List (κ × v)) :
    (dinsert k val d).map Prod.fst =
      if k ∈ d.map Prod.fst then d.map Prod.fst else d.map Prod.fst ++ [k] := by
  induction d with
  | nil => simp [dinsert]
  | cons p rest ih =>
    by_cases hp : p.1 = k
    · simp [dinsert, hp]
    · have : ¬ k = p.1 := fun e => hp e.symm
      simp only [dinsert, if_neg hp, List.map_cons, ih, List.mem_cons]
      by_cases hm : k ∈ rest.map Prod.fst <;> simp [hm, this]

theorem dictWF_dinsert {k : κ} {val : v} {d : List (κ × v)}
    (h : DictWF d) : DictWF (dinsert k val d) := by
  unfold DictWF at *
  rw [map_fst_dinsert]
  by_cases hm : k ∈ d.map Prod.fst
  · simpa [hm] using h
  · simp only [hm, if_false]
    rw [List.nodup_append]
    exact ⟨h, List.nodup_singleton k, fun a ha hb => by
      simp only [List.mem_singleton] at hb
      exact hm (hb ▸ ha)⟩

theorem dictWF_dupdate {d other : List (κ × v)} (h : DictWF d) :
    DictWF (dupdate d other) := by
  induction other generalizing d with
  | nil => exact h
  | cons p rest ih => exact ih (dictWF_dinsert h)

theorem dlookup_dinsert (k k' : κ) (val : v) (d : List (κ × v)) :
    dlookup k (dinsert k' val d) =
      if k' = k then some val else dlookup k d := by
  induction d with
  | nil =>
    by_cases h : k' = k <;> simp [dinsert, dlookup, h]
  | cons p rest ih =>
    by_cases hp : p.1 = k'
    · by_cases hk : k' = k
      · simp [dinsert, dlookup, hp, hk]
      · have : ¬ p.1 = k := fun e => hk (hp ▸ e)
        simp [dinsert, dlookup, hp, hk, this]
    · by_cases hpk : p.1 = k
      · have h1 : ¬ k' = k := fun e => hp (e ▸ hpk)
        have h2 : ¬ k = k' := fun e => h1 e.symm
        simp [dinsert, dlookup, hp, hpk, h1, h2]
      · simp [dinsert, dlookup, hp, hpk, ih]

theorem dlookup_dupdate {other : List (κ × v)} (d : List (κ × v)) (k : κ)
    (ho : DictWF other) :
    dlookup k (dupdate d other) = (dlookup k other).or (dlookup k d) := by
  induction other generalizing d with
  | nil => simp [dupdate, dlookup]
  | cons p rest ih =>
    have hr : DictWF rest := (List.nodup_cons.mp ho).2
    have hk : p.1 ∉ rest.map Prod.fst := (List.nodup_cons.mp ho).1
    simp only [dupdate, List.foldl_cons]
    have step := ih (dinsert p.1 p.2 d) hr
    simp only [dupdate] at step
    rw [step, dlookup_dinsert]
    by_cases he : p.1 = k
    · subst he
      rw [dlookup_eq_none_of_not_mem hk]
      simp [dlookup]
    · simp [dlookup, he]

theorem dcontains_eq_isSome_dlookup (k : κ) (d : List (κ × v)) :
    dcontains k d = (dlookup k d).isSome := by
  induction d with
  | nil => rfl
  | cons p rest ih =>
    simp only [dcontains] at ih
    by_cases hp : p.1 = k
    · simp [dcontains, dlookup, hp]
    · simp [dcontains, dlookup, hp, ih]

theorem dcontains_dupdate {d other : List (κ × v)} (k : κ) (ho : DictWF other) :
    dcontains k (dupdate d other) = (dcontains k d || dcontains k other) := by
  rw [dcontains_eq_isSome_dlookup, dcontains_eq_isSome_dlookup,
    dcontains_eq_isSome_dlookup, dlookup_dupdate _ _ ho]
  cases dlookup k other <;> cases dlookup k d <;> simp [Option.or]

end Dict

namespace Conf

/-! ## Resource model (`confbundler/types/user.py`, `filesystem.py`)

Python dataclasses with `init=False` keep class-level defaults out of the
instance `__dict__`; both `BundledEntry.__enter__` and the tar encoder test
`'atime' in file.__dict__`-style membership.  Fields that may be absent
from the instance dictionary are therefore modelled as `Option`, with the
class-level default applied by an accessor. -/

/-- `PurePosixPath`, as its tuple of parts: `'/etc/foo'` is
`["/", "etc", "foo"]` and the relative `'etc/foo'` is `["etc", "foo"]`,
mirroring `PurePosixPath.parts`. Comparison (used by `sorted`) is
lexicographic over the parts. -/
structure PurePosixPath where
  parts : List String
deriving DecidableEq

/-- Split a character list on `/` (the segments of `str.split('/')`,
empty segments included). -/
def splitSlashAux : List Char → List Char → List String
  | [], acc => [String.mk acc.reverse]
  | c :: rest, acc =>
    if c = '/' then String.mk acc.reverse :: splitSlashAux rest []
    else splitSlashAux rest (c :: acc)

/-- Parse a string into a `PurePosixPath`: split on `/`, drop empty
components and `.`, and record absoluteness as a leading `/` part. -/
def PurePosixPath.parse (s : String) : PurePosixPath :=
  let comps := (splitSlashAux s.data []).filter (fun c => ¬ c = "" ∧ ¬ c = ".")
  if s.data.head? = some '/' then ⟨"/" :: comps⟩ else ⟨comps⟩

def PurePosixPath.isAbsolute (p : PurePosixPath) : Bool :=
  p.parts.head? = some "/"

/-- `PurePosixPath('/') / p` — identity on absolute paths, else re-rooting. -/
def PurePosixPath.rootJoin (p : PurePosixPath) : PurePosixPath :=
  if p.isAbsolute then p else ⟨"/" :: p.parts⟩

/-- Join path components with `/`. -/
def joinParts : List String → String
  | [] => ""
  | [x] => x
  | x :: rest => x ++ "/" ++ joinParts rest

/-- `str(p)` (used in warning messages and tar entry names). -/
def PurePosixPath.toStr (p : PurePosixPath) : String :=
  match p.parts with
  | [] => "."
  | "/" :: rest => "/" ++ joinParts rest
  | parts => joinParts parts

instance : LinearOrder PurePosixPath :=
  LinearOrder.lift' PurePosixPath.parts (fun a b h => by
    cases a; cases b; simpa using h)

/-- A host (authoring machine) path — `pathlib.Path` on a POSIX host has
the same parts representation as `PurePosixPath`. -/
structure HostPath where
  parts : List String
deriving DecidableEq

/-- `host / rel` for a relative parts list (used by the bundled-source
fallback and glob re-rooting). -/
def HostPath.join (p : HostPath) (rel : List String) : HostPath :=
  ⟨p.parts ++ rel⟩

/-- `confbundler.types.user.Group`: `id` is set on the instance only when
passed (class default 0). -/
structure Group where
  name : String
  id : Option Int := none
deriving DecidableEq

def Group.idD (g : Group) : Int := g.id.getD 0

/-- `confbundler.types.user.User`. -/
structure User where
  name : String
  id : Option Int := none
  groups : List Group := []
deriving DecidableEq

def User.idD (u : User) : Int := u.id.getD 0

/-- The metadata fields of `Entry` as they live in an instance
`__dict__`: `xattrs` is always assigned by `Entry.__init__`, the others
only when a non-`None` value was passed. -/
structure EntryMeta where
  owner : Option User := none
  group : Option Group := none
  mode : Option Int := none
  atime : Option (Int × Int) := none
  mtime : Option (Int × Int) := none
  xattrs : List (String × String) := []
deriving DecidableEq

/-- Class-level defaults of `Entry` (`owner=root/0`, `group=root/0`). -/
def EntryMeta.ownerD (m : EntryMeta) : User := m.owner.getD ⟨"root", some 0, []⟩

def EntryMeta.groupD (m : EntryMeta) : Group := m.group.getD ⟨"root", some 0⟩

/-- `file.atime` — instance value or the `(0, 0)` class default. -/
def EntryMeta.atimeD (m : EntryMeta) : Int × Int := m.atime.getD (0, 0)

def EntryMeta.mtimeD (m : EntryMeta) : Int × Int := m.mtime.getD (0, 0)

/-- `Device.Kind`. -/
inductive DevKind where
  | block
  | character
deriving DecidableEq

/-- An exclusively owned byte stream (`io.BytesIO` / an opened host
file): content bytes plus a read position. -/
structure ByteStream where
  data : List Nat
  pos : Int := 0
  seekable : Bool := true
deriving DecidableEq

def ByteStream.tell (s : ByteStream) : Int := s.pos

/-- `seek(0, SEEK_END)` — returns the new offset (the length). -/
def ByteStream.seekEnd (s : ByteStream) : Int × ByteStream :=
  ((s.data.length : Int), { s with pos := (s.data.length : Int) })

def ByteStream.seekTo (s : ByteStream) (p : Int) : ByteStream :=
  { s with pos := p }

/-- `BundledEntry` — a host path plus the `Entry` metadata template. -/
structure BundledEntry where
  source : HostPath
  meta : EntryMeta
deriving DecidableEq

/-- `RemoteEntry`. -/
structure RemoteEntry where
  source : Option PurePosixPath := none
  meta : EntryMeta
deriving DecidableEq

/-- `Device`. -/
structure DeviceRec where
  kind : DevKind
  devmajor : Int
  devminor : Int
  meta : EntryMeta
deriving DecidableEq

/-- `File` (after `__init__` ran; `length` already computed). -/
structure FileRec where
  content : ByteStream
  length : Int
  meta : EntryMeta
deriving DecidableEq

/-- `SymbolicLink`. -/
structure SymlinkRec where
  destination : PurePosixPath
  meta : EntryMeta
deriving DecidableEq

/-- Every value a decoded record slot can hold (`Entry` subtypes,
`AbsentResource`, `Package`, `User`). `absent` and `package` are modelled
from the spec: `confbundler/types/__init__.py` (AbsentResource) and
`confbundler/types/package.py` (Package) are not among the sources;
per the spec AbsentResource is a tombstone carrying no metadata and
Package is a name plus present/absent state, absence being encoded by
AbsentResource itself. `entryRec` is a plain `Entry` instance (never
produced by the shipped type specifications, but constructible). -/
inductive Record where
  | bundled (e : BundledEntry)
  | remote (e : RemoteEntry)
  | file (f : FileRec)
  | directory (m : EntryMeta)
  | pipe (m : EntryMeta)
  | device (d : DeviceRec)
  | symlink (s : SymlinkRec)
  | entryRec (m : EntryMeta)
  | absent
  | package (name : String)
  | user (u : User)
deriving DecidableEq

/-- The metadata of a present filesystem record (`file.owner`, `.mode`,
... in the tar encoder); junk default for the non-filesystem records. -/
def Record.metaOf : Record → EntryMeta
  | .bundled e => e.meta
  | .remote e => e.meta
  | .file f => f.meta
  | .directory m => m
  | .pipe m => m
  | .device d => d.meta
  | .symlink s => s.meta
  | .entryRec m => m
  | _ => {}

/-- `file.mode` — instance value, else the class default: `0o755` for
`Directory`, `0o644` otherwise. -/
def Record.modeD : Record → Int
  | .directory m => m.mode.getD 0o755
  | r => r.metaOf.mode.getD 0o644

/-! ## File construction (`File.__init__`) -/

/-- `File.__init__(content, length=None, no_auto_length=False, **kwargs)`:
an explicit length wins; otherwise, for a seekable stream, the length is
read by seeking to the end and the read position is restored; otherwise
the class default 0 stands. -/
def fileInit (content : ByteStream) (length? : Option Int)
    (no_auto_length : Bool) (meta : EntryMeta) : FileRec :=
  match length? with
  | some n => ⟨content, n, meta⟩
  | none =>
    if ¬ no_auto_length ∧ content.seekable then
      let pos := content.tell
      let (len, c1) := content.seekEnd
      let c2 := c1.seekTo pos
      ⟨c2, len, meta⟩
    else
      ⟨content, 0, meta⟩

/-! ## Bundle store and merge (`confbundler/types/bundle.py`) -/

/-- `Bundle` — five identity-keyed mappings. Value slots hold `Record`s
(Python is duck-typed; the decoder routes `BundledEntry`s into
`bundled_globs` and `RemoteEntry`s into `remote_globs`, so those two carry
the typed payloads directly). -/
structure Bundle where
  files : List (PurePosixPath × Record) := []
  bundled_globs : List (String × BundledEntry) := []
  remote_globs : List (String × RemoteEntry) := []
  packages : List (String × Record) := []
  users : List (String × Record) := []

/-- The dict invariant for all five mappings of a bundle. -/
def Bundle.WF (b : Bundle) : Prop :=
  DictWF b.files ∧ DictWF b.bundled_globs ∧ DictWF b.remote_globs ∧
    DictWF b.packages ∧ DictWF b.users

/-- `Bundle.__add__` — `self.<mapping>.update(other.<mapping>)` for each
of the five mappings (the Python method mutates and returns `self`; the
value of the result is this per-mapping dict update). -/
def Bundle.add (a b : Bundle) : Bundle where
  files := dupdate a.files b.files
  bundled_globs := dupdate a.bundled_globs b.bundled_globs
  remote_globs := dupdate a.remote_globs b.remote_globs
  packages := dupdate a.packages b.packages
  users := dupdate a.users b.users

theorem Bundle.add_wf {a b : Bundle} (ha : a.WF) : (a.add b).WF :=
  ⟨dictWF_dupdate ha.1, dictWF_dupdate ha.2.1, dictWF_dupdate ha.2.2.1,
    dictWF_dupdate ha.2.2.2.1, dictWF_dupdate ha.2.2.2.2⟩

theorem dlookup_assoc_dupdate {κ v : Type _} [DecidableEq κ]
    (a b c : List (κ × v)) (hb : DictWF b) (hc : DictWF c) (k : κ) :
    dlookup k (dupdate (dupdate a b) c) = dlookup k (dupdate a (dupdate b c)) := by
  rw [dlookup_dupdate _ _ hc, dlookup_dupdate _ _ hb,
    dlookup_dupdate _ _ (dictWF_dupdate hb), dlookup_dupdate _ _ hc]
  cases dlookup k c <;> cases dlookup k b <;> cases dlookup k a <;>
    simp [Option.or]

/-- **C2.** For all Bundles `A`, `B`, `C` (with the §3 dict invariant on
the operands of each merge), the merge operation is associative per
mapping — `merge(merge(A,B),C)` and `merge(A,merge(B,C))` agree, as
Python dict equality, on each of the five mappings — and each mapping of
`merge(A,B)` has key set equal to the union of the operands' key sets
with `B`'s value chosen whenever a key occurs in both (the lookup of
`merge(A,B)` is `B`'s lookup or-else `A`'s). -/
theorem claim_c2_merge_assoc_union (A B C : Bundle) (hB : B.WF) (hC : C.WF)
    (k : PurePosixPath) (n : String) :
    (dlookup k ((A.add B).add C).files = dlookup k (A.add (B.add C)).files ∧
     dlookup n ((A.add B).add C).bundled_globs =
       dlookup n (A.add (B.add C)).bundled_globs ∧
     dlookup n ((A.add B).add C).remote_globs =
       dlookup n (A.add (B.add C)).remote_globs ∧
     dlookup n ((A.add B).add C).packages = dlookup n (A.add (B.add C)).packages ∧
     dlookup n ((A.add B).add C).users = dlookup n (A.add (B.add C)).users) ∧
    (dcontains k (A.add B).files = (dcontains k A.files || dcontains k B.files) ∧
     dcontains n (A.add B).bundled_globs =
       (dcontains n A.bundled_globs || dcontains n B.bundled_globs) ∧
     dcontains n (A.add B).remote_globs =
       (dcontains n A.remote_globs || dcontains n B.remote_globs) ∧
     dcontains n (A.add B).packages =
       (dcontains n A.packages || dcontains n B.packages) ∧
     dcontains n (A.add B).users = (dcontains n A.users || dcontains n B.users)) ∧
    (dlookup k (A.add B).files = (dlookup k B.files).or (dlookup k A.files) ∧
     dlookup n (A.add B).bundled_globs =
       (dlookup n B.bundled_globs).or (dlookup n A.bundled_globs) ∧
     dlookup n (A.add B).remote_globs =
       (dlookup n B.remote_globs).or (dlookup n A.remote_globs) ∧
     dlookup n (A.add B).packages =
       (dlookup n B.packages).or (dlookup n A.packages) ∧
     dlookup n (A.add B).users = (dlookup n B.users).or (dlookup n A.users)) := by
  obtain ⟨hB1, hB2, hB3, hB4, hB5⟩ := hB
  obtain ⟨hC1, hC2, hC3, hC4, hC5⟩ := hC
  refine ⟨⟨?_, ?_, ?_, ?_, ?_⟩, ⟨?_, ?_, ?_, ?_, ?_⟩, ⟨?_, ?_, ?_, ?_, ?_⟩⟩
  · exact dlookup_assoc_dupdate _ _ _ hB1 hC1 k
  · exact dlookup_assoc_dupdate _ _ _ hB2 hC2 n
  · exact dlookup_assoc_dupdate _ _ _ hB3 hC3 n
  · exact dlookup_assoc_dupdate _ _ _ hB4 hC4 n
  · exact dlookup_assoc_dupdate _ _ _ hB5 hC5 n
  · exact dcontains_dupdate k hB1
  · exact dcontains_dupdate n hB2
  · exact dcontains_dupdate n hB3
  · exact dcontains_dupdate n hB4
  · exact dcontains_dupdate n hB5
  · exact dlookup_dupdate _ _ hB1
  · exact dlookup_dupdate _ _ hB2
  · exact dlookup_dupdate _ _ hB3
  · exact dlookup_dupdate _ _ hB4
  · exact dlookup_dupdate _ _ hB5

/-- Concrete bundles for the C2 witness: `A` and `B` collide on the path
`/etc/passwd` (so right bias is exercised), `C` brings a fresh key. -/
def bundleA : Bundle :=
  { files := [(⟨["/", "etc", "passwd"]⟩, Record.package "marker-a")] }

def bundleB : Bundle :=
  { files := [(⟨["/", "etc", "passwd"]⟩, Record.absent)],
    packages := [("vim", Record.package "vim")] }

def bundleC : Bundle :=
  { files := [(⟨["/", "etc", "motd"]⟩, Record.absent)] }

/-- Witness for C2 at concrete bundles and keys: associativity and right
bias observed at the colliding path. -/
theorem claim_c2_merge_assoc_union_witness :
    bundleB.WF ∧ bundleC.WF ∧
    dlookup ⟨["/", "etc", "passwd"]⟩ ((bundleA.add bundleB).add bundleC).files =
      dlookup ⟨["/", "etc", "passwd"]⟩ (bundleA.add (bundleB.add bundleC)).files ∧
    dlookup ⟨["/", "etc", "passwd"]⟩ (bundleA.add bundleB).files =
      (dlookup ⟨["/", "etc", "passwd"]⟩ bundleB.files).or
        (dlookup ⟨["/", "etc", "passwd"]⟩ bundleA.files) :=
  ⟨by refine ⟨?_, ?_, ?_, ?_, ?_⟩ <;> simp [bundleB, DictWF],
   by refine ⟨?_, ?_, ?_, ?_, ?_⟩ <;> simp [bundleC, DictWF],
   (claim_c2_merge_assoc_union bundleA bundleB bundleC
     (by refine ⟨?_, ?_, ?_, ?_, ?_⟩ <;> simp [bundleB, DictWF])
     (by refine ⟨?_, ?_, ?_, ?_, ?_⟩ <;> simp [bundleC, DictWF])
     ⟨["/", "etc", "passwd"]⟩ "vim").1.1,
   (claim_c2_merge_assoc_union bundleA bundleB bundleC
     (by refine ⟨?_, ?_, ?_, ?_, ?_⟩ <;> simp [bundleB, DictWF])
     (by refine ⟨?_, ?_, ?_, ?_, ?_⟩ <;> simp [bundleC, DictWF])
     ⟨["/", "etc", "passwd"]⟩ "vim").2.2.1⟩

/-! ## Errors and the host filesystem interface -/

/-- `yaml.constructor.ConstructorError` payload: problem text and source
position (the quoting decoration of the original messages is omitted). -/
structure CtorErrData where
  problem : String
  mark : Option Nat
deriving DecidableEq

/-- A raised Python exception: `ctor` is the `ConstructorError` hierarchy
(the catchable fatal decode errors), `py` is every other exception
(`TypeError`, `ValueError`, `RuntimeError`, `NotImplementedError`), which
`construct_bundle` does not catch. -/
inductive PyErr where
  | ctor (e : CtorErrData)
  | py (msg : String)
deriving DecidableEq

/-- A non-fatal diagnostic reported through `warnings.warn`:
`ConstructorWarning` or its `FileOmittedWarning` subclass. -/
inductive Warning where
  | ctorWarn (problem : String) (mark : Option Nat)
  | fileOmitted (problem : String) (mark : Option Nat)
deriving DecidableEq

/-- The kind of a host filesystem node, as decoded from `st_mode` by the
`S_ISREG`/`S_ISBLK`/... predicates. -/
inductive NodeKind where
  | reg
  | blk
  | chr
  | dir
  | fifo
  | lnk
  | other
deriving DecidableEq

/-- The result of `lstat` on a host node. -/
structure StatInfo where
  kind : NodeKind
  size : Int := 0
  atimeNs : Int := 0
  mtimeNs : Int := 0
  rdevMajor : Int := 0
  rdevMinor : Int := 0
deriving DecidableEq

/-- The host-filesystem query surface (external collaborator per §6 of the
spec): status, symbolic-link target read, glob match, file open. -/
structure HostFS where
  lstat : HostPath → Except PyErr StatInfo
  readlink : HostPath → PurePosixPath
  openRead : HostPath → ByteStream
  glob : HostPath → String → List HostPath

/-- Split a nanosecond timestamp into seconds and nanoseconds
(`ns // 10**9, ns % 10**9`; Python floor division and nonnegative
remainder agree with Euclidean division for the positive divisor). -/
def nsSplit (ns : Int) : Int × Int :=
  (Int.ediv ns (10 ^ 9), Int.emod ns (10 ^ 9))

/-- `BundledEntry.__enter__` — resolve the bundled entry into a proper
filesystem object: `lstat` the source; fill in `atime`/`mtime` from the
host node when not explicitly set; dispatch on the node kind; any other
node kind raises `TypeError` (a fatal resolution error). -/
def BundledEntry.enter (fs : HostFS) (be : BundledEntry) : Except PyErr Record :=
  match fs.lstat be.source with
  | .error e => .error e
  | .ok st =>
    let meta : EntryMeta :=
      { be.meta with
        atime := some (be.meta.atime.getD (nsSplit st.atimeNs)),
        mtime := some (be.meta.mtime.getD (nsSplit st.mtimeNs)) }
    match st.kind with
    | .reg => .ok (.file (fileInit (fs.openRead be.source) (some st.size) false meta))
    | .blk => .ok (.device ⟨.block, st.rdevMajor, st.rdevMinor, meta⟩)
    | .chr => .ok (.device ⟨.character, st.rdevMajor, st.rdevMinor, meta⟩)
    | .dir => .ok (.directory meta)
    | .fifo => .ok (.pipe meta)
    | .lnk => .ok (.symlink ⟨fs.readlink be.source, meta⟩)
    | .other => .error (.py "TypeError: Unsupported file type")

/-! ## Resolution pipeline (`Bundle.iter_files`, `_resolve_globs`, `uniq`) -/

/-- `glob.lstrip('/')`. -/
def lstripSlash (s : String) : String :=
  String.mk (s.data.dropWhile (fun c => c = '/'))

/-- `path.relative_to(base)` — drop the `base` prefix of the parts, a
`ValueError` when `base` is not a prefix (glob matches always extend
their root, but the operation itself is fallible). -/
def HostPath.relativeTo (p base : HostPath) : Except PyErr (List String) :=
  if base.parts.isPrefixOf p.parts then
    .ok (p.parts.drop base.parts.length)
  else
    .error (.py "ValueError: path is not relative to base")

/-- The inner loop of `_resolve_globs`: for every host match, re-root the
match's source-relative position at `/` and pair it with a fresh
`BundledEntry` carrying the template's metadata. -/
def expandMatches (be : BundledEntry) :
    List HostPath → Except PyErr (List (PurePosixPath × Record))
  | [] => .ok []
  | p :: ps =>
    match p.relativeTo be.source with
    | .error e => .error e
    | .ok rel =>
      match expandMatches be ps with
      | .error e => .error e
      | .ok rest => .ok ((⟨"/" :: rel⟩, Record.bundled ⟨p, be.meta⟩) :: rest)

/-- `_resolve_globs` — expand every `bundled_globs` entry against the
host filesystem. -/
def resolveGlobs (fs : HostFS) :
    List (String × BundledEntry) → Except PyErr (List (PurePosixPath × Record))
  | [] => .ok []
  | (pat, be) :: rest =>
    match expandMatches be (fs.glob be.source (lstripSlash pat)) with
    | .error e => .error e
    | .ok expanded =>
      match resolveGlobs fs rest with
      | .error e => .error e
      | .ok others => .ok (expanded ++ others)

/-- The loop body of `uniq` after the first element was taken: yield an
element exactly when its key differs from the last yielded key. -/
def uniqTail {T κ : Type _} [DecidableEq κ] (key : T → κ) (last : T) :
    List T → List T
  | [] => []
  | i :: rest =>
    if key i = key last then uniqTail key last rest
    else i :: uniqTail key i rest

/-- `uniq` — group by key and yield the first element of each group.  The
Python generator begins with `next(iterator)`, so on an empty iterable
the escaping `StopIteration` becomes a `RuntimeError` (PEP 479) when the
generator is consumed. -/
def uniq {T κ : Type _} [DecidableEq κ] (key : T → κ) :
    List T → Except PyErr (List T)
  | [] => .error (.py "RuntimeError: generator raised StopIteration")
  | x :: xs => .ok (x :: uniqTail key x xs)

/-- The comparison `sorted(..., key=lambda x: x[0])` performs. -/
def sortKey {κ V : Type _} [LinearOrder κ] (x y : κ × V) : Bool :=
  decide (x.1 ≤ y.1)

/-- Resolution of one surviving pair: a `BundledEntry` is entered, any
other record is yielded unchanged. -/
def resolveRecord (fs : HostFS) : Record → Except PyErr Record
  | .bundled be => be.enter fs
  | r => .ok r

/-- Full consumption of the resolution loop of `iter_files`. -/
def resolveAll (fs : HostFS) :
    List (PurePosixPath × Record) → Except PyErr (List (PurePosixPath × Record))
  | [] => .ok []
  | (p, r) :: rest =>
    match resolveRecord fs r with
    | .error e => .error e
    | .ok r2 =>
      match resolveAll fs rest with
      | .error e => .error e
      | .ok rest2 => .ok ((p, r2) :: rest2)

/-- `Bundle.iter_files` up to (and including) sorting and deduplication:
chain explicit `files` with the glob expansion, stable-sort by path,
deduplicate keeping first per key. -/
def Bundle.iter_files_pairs (fs : HostFS) (b : Bundle) :
    Except PyErr (List (PurePosixPath × Record)) :=
  match resolveGlobs fs b.bundled_globs with
  | .error e => .error e
  | .ok globbed => uniq (fun x => x.1) ((b.files ++ globbed).mergeSort sortKey)

/-- `Bundle.iter_files`, fully consumed: the deduplicated pairs with
every `BundledEntry` resolved against the host. -/
def Bundle.iter_files (fs : HostFS) (b : Bundle) :
    Except PyErr (List (PurePosixPath × Record)) :=
  match b.iter_files_pairs fs with
  | .error e => .error e
  | .ok pairs => resolveAll fs pairs

/-- **C10.** On a Bundle with empty `files` and `bundled_globs`,
consuming `iter_files` raises: `uniq` starts with `next` on an empty
iterator and the escaping `StopIteration` surfaces as a `RuntimeError`
instead of an empty sequence being yielded. -/
theorem claim_c10_empty_bundle_raises (fs : HostFS) (b : Bundle)
    (h1 : b.files = []) (h2 : b.bundled_globs = []) :
    b.iter_files fs = .error (.py "RuntimeError: generator raised StopIteration") := by
  have hp : b.iter_files_pairs fs =
      .error (.py "RuntimeError: generator raised StopIteration") := by
    simp only [Bundle.iter_files_pairs, h1, h2, resolveGlobs, List.nil_append,
      List.mergeSort_nil, uniq]
  simp only [Bundle.iter_files, hp]

/-- A trivial host filesystem for witnesses. -/
def hostFS0 : HostFS where
  lstat := fun _ => .error (.py "FileNotFoundError")
  readlink := fun _ => ⟨[]⟩
  openRead := fun _ => ⟨[], 0, true⟩
  glob := fun _ _ => []

/-- Witness for C10: the empty bundle. -/
theorem claim_c10_empty_bundle_raises_witness :
    Bundle.iter_files hostFS0 {} =
      .error (.py "RuntimeError: generator raised StopIteration") :=
  claim_c10_empty_bundle_raises hostFS0 {} rfl rfl

/-! ## C1: sortedness, uniqueness and precedence of `iter_files` -/

theorem sortKey_trans {κ V : Type _} [LinearOrder κ] :
    ∀ a b c : κ × V, sortKey a b → sortKey b c → sortKey a c := by
  intro a b c hab hbc
  simp only [sortKey, decide_eq_true_eq] at *
  exact le_trans hab hbc

theorem sortKey_total {κ V : Type _} [LinearOrder κ] :
    ∀ a b : κ × V, sortKey a b || sortKey b a := by
  intro a b
  simp only [sortKey, Bool.or_eq_true, decide_eq_true_eq]
  exact le_total a.1 b.1

/-- After the first element was yielded, `uniq`'s tail loop turns a
non-strictly sorted run into a strictly increasing one, every yielded key
strictly above the last yielded one. -/
theorem uniqTail_sorted {κ V : Type _} [LinearOrder κ] [DecidableEq κ] :
    ∀ (xs : List (κ × V)) (last : κ × V),
      xs.Pairwise (fun x y => x.1 ≤ y.1) →
      (∀ x ∈ xs, last.1 ≤ x.1) →
      (uniqTail (fun x => x.1) last xs).Pairwise (fun x y => x.1 < y.1) ∧
        ∀ y ∈ uniqTail (fun x => x.1) last xs, last.1 < y.1 := by
  intro xs
  induction xs with
  | nil => intro last _ _; exact ⟨List.Pairwise.nil, by intro y hy; cases hy⟩
  | cons i rest ih =>
    intro last hp hl
    obtain ⟨hir, hrest⟩ := List.pairwise_cons.mp hp
    by_cases he : i.1 = last.1
    · have step := ih last hrest (fun x hx => le_trans (he ▸ hl i (by simp)) (hir x hx))
      simpa [uniqTail, he] using step
    · have hlast_lt : last.1 < i.1 :=
        lt_of_le_of_ne (hl i (by simp)) (fun e => he e.symm)
      have step := ih i hrest hir
      refine ⟨?_, ?_⟩
      · simp only [uniqTail, if_neg he]
        exact List.pairwise_cons.mpr ⟨step.2, step.1⟩
      · intro y hy
        simp only [uniqTail, if_neg he, List.mem_cons] at hy
        rcases hy with rfl | hy
        · exact hlast_lt
        · exact lt_trans hlast_lt (step.2 y hy)

/-- `uniq` of a (non-strictly) sorted list has strictly increasing keys. -/
theorem uniq_sorted {κ V : Type _} [LinearOrder κ] [DecidableEq κ]
    {s u : List (κ × V)} (hs : s.Pairwise (fun x y => x.1 ≤ y.1))
    (h : uniq (fun x => x.1) s = .ok u) :
    u.Pairwise (fun x y => x.1 < y.1) := by
  cases s with
  | nil => simp [uniq] at h
  | cons x xs =>
    simp only [uniq, Except.ok.injEq] at h
    subst h
    obtain ⟨hxr, hrest⟩ := List.pairwise_cons.mp hs
    have step := uniqTail_sorted xs x hrest hxr
    exact List.pairwise_cons.mpr ⟨step.2, step.1⟩

/-- The tail loop of `uniq` keeps the first element of every key group
whose key differs from the last yielded one. -/
theorem uniqTail_mem_first {κ V : Type _} [DecidableEq κ] (P : κ) :
    ∀ (xs : List (κ × V)) (last : κ × V), ¬ last.1 = P →
      ∀ {z : κ × V} {zs : List (κ × V)},
        xs.filter (fun x => decide (x.1 = P)) = z :: zs →
        z ∈ uniqTail (fun x => x.1) last xs := by
  intro xs
  induction xs with
  | nil => intro last _ z zs hf; simp at hf
  | cons i rest ih =>
    intro last hlast z zs hf
    by_cases hi : i.1 = P
    · rw [List.filter_cons_of_pos (by simpa using hi)] at hf
      obtain ⟨rfl, -⟩ := List.cons.injEq .. ▸ hf
      have hne : ¬ i.1 = last.1 := fun e => hlast (e ▸ hi)
      simp [uniqTail, hne]
    · rw [List.filter_cons_of_neg (by simpa using hi)] at hf
      by_cases he : i.1 = last.1
      · simpa [uniqTail, he] using ih last hlast hf
      · simp only [uniqTail, if_neg he, List.mem_cons]
        exact Or.inr (ih i hi hf)

/-- `uniq` keeps the first element of every key group. -/
theorem uniq_mem_first {κ V : Type _} [DecidableEq κ]
    {s u : List (κ × V)} {P : κ} {z : κ × V} {zs : List (κ × V)}
    (h : uniq (fun x => x.1) s = .ok u)
    (hf : s.filter (fun x => decide (x.1 = P)) = z :: zs) :
    z ∈ u := by
  cases s with
  | nil => simp [uniq] at h
  | cons x xs =>
    simp only [uniq, Except.ok.injEq] at h
    subst h
    by_cases hx : x.1 = P
    · rw [List.filter_cons_of_pos (by simpa using hx)] at hf
      obtain ⟨rfl, -⟩ := List.cons.injEq .. ▸ hf
      simp
    · rw [List.filter_cons_of_neg (by simpa using hx)] at hf
      exact List.mem_cons.mpr (Or.inr (uniqTail_mem_first P xs x hx hf))

/-- A sublist of `s` whose elements all satisfy `p` and which has as many
elements as `s.filter p` *is* `s.filter p`. -/
theorem sublist_filter_eq {T : Type _} (p : T → Bool) :
    ∀ {A s : List T}, A.Sublist s → (∀ a ∈ A, p a = true) →
      A.length = (s.filter p).length → A = s.filter p := by
  intro A s h
  induction h with
  | slnil => intro _ _; rfl
  | @cons A s a h ih =>
    intro hall hlen
    by_cases hpa : p a = true
    · exfalso
      have hsub : A.filter p = A := List.filter_eq_self.mpr hall
      have : (A.filter p).length ≤ (s.filter p).length :=
        (h.filter p).length_le
      rw [hsub] at this
      rw [List.filter_cons_of_pos hpa] at hlen
      simp only [List.length_cons] at hlen
      omega
    · rw [List.filter_cons_of_neg (by simpa using hpa)]
      exact ih hall (by rwa [List.filter_cons_of_neg (by simpa using hpa)] at hlen)
  | @cons₂ A s a h ih =>
    intro hall hlen
    have hpa : p a = true := hall a (by simp)
    rw [List.filter_cons_of_pos hpa] at hlen ⊢
    simp only [List.length_cons] at hlen
    have := ih (fun x hx => hall x (by simp [hx])) (by omega)
    rw [this]

/-- Stability of the sort, in filter form: for a predicate whose
satisfying elements are mutually `sortKey`-related (e.g. "has key `P`"),
the filtered sublist of `mergeSort` is the filtered sublist of the input:
equal elements keep their original relative order. -/
theorem mergeSort_filter_stable {κ V : Type _} [LinearOrder κ]
    (l : List (κ × V)) (p : κ × V → Bool)
    (hp : ∀ a b, p a = true → p b = true → sortKey a b = true) :
    (l.mergeSort sortKey).filter p = l.filter p := by
  have hA : (l.filter p).Pairwise (fun x y => sortKey x y = true) := by
    apply List.pairwise_of_forall_mem_list
    intro a ha b hb
    exact hp a b (List.of_mem_filter ha) (List.of_mem_filter hb)
  have hsub : (l.filter p).Sublist (l.mergeSort sortKey) :=
    List.sublist_mergeSort sortKey_trans sortKey_total hA (List.filter_sublist l)
  have hperm : List.Perm ((l.mergeSort sortKey).filter p) (l.filter p) :=
    (List.mergeSort_perm l sortKey).filter _
  exact (sublist_filter_eq _ hsub
    (fun a ha => List.of_mem_filter ha) hperm.length_eq.symm).symm

/-- Strictly increasing keys mean at most one record per key. -/
theorem pairwise_fst_unique {κ V : Type _} [Preorder κ] :
    ∀ {l : List (κ × V)}, l.Pairwise (fun x y => x.1 < y.1) →
      ∀ {P : κ} {r r' : V}, (P, r) ∈ l → (P, r') ∈ l → r = r' := by
  intro l
  induction l with
  | nil => intro _ P r r' h1 _; cases h1
  | cons x rest ih =>
    intro hl P r r' h1 h2
    obtain ⟨hx, hrest⟩ := List.pairwise_cons.mp hl
    rcases List.mem_cons.mp h1 with e1 | m1
    · rcases List.mem_cons.mp h2 with e2 | m2
      · exact (Prod.ext_iff.mp (e1.trans e2.symm)).2
      · exfalso
        have hlt := hx _ m2
        rw [← e1] at hlt
        exact lt_irrefl P hlt
    · rcases List.mem_cons.mp h2 with e2 | m2
      · exfalso
        have hlt := hx _ m1
        rw [← e2] at hlt
        exact lt_irrefl P hlt
      · exact ih hrest m1 m2

/-- On a well-formed dict, a successful lookup means the filtered list is
exactly the singleton binding. -/
theorem dlookup_filter_singleton {κ V : Type _} [DecidableEq κ] :
    ∀ {F : List (κ × V)} {P : κ} {val : V}, DictWF F →
      dlookup P F = some val →
      F.filter (fun x => decide (x.1 = P)) = [(P, val)] := by
  intro F
  induction F with
  | nil => intro P val _ h; simp [dlookup] at h
  | cons p rest ih =>
    intro P val hwf h
    have hwf' : DictWF rest := (List.nodup_cons.mp hwf).2
    have hnot : p.1 ∉ rest.map Prod.fst := (List.nodup_cons.mp hwf).1
    by_cases hp : p.1 = P
    · simp only [dlookup, if_pos hp] at h
      rw [List.filter_cons_of_pos (by simpa using hp)]
      have hrest : rest.filter (fun x => decide (x.1 = P)) = [] := by
        rw [List.filter_eq_nil_iff]
        intro a ha
        simp only [decide_eq_true_eq]
        intro he
        exact hnot (hp ▸ he ▸ List.mem_map_of_mem Prod.fst ha)
      rw [hrest]
      obtain ⟨p1, p2⟩ := p
      simp only at hp
      simp only [Option.some.injEq] at h
      simp [hp, h]
    · simp only [dlookup, if_neg hp] at h
      rw [List.filter_cons_of_neg (by simpa using hp)]
      exact ih hwf' h

theorem resolveAll_map_fst (fs : HostFS) :
    ∀ {xs ys : List (PurePosixPath × Record)}, resolveAll fs xs = .ok ys →
      ys.map Prod.fst = xs.map Prod.fst := by
  intro xs
  induction xs with
  | nil =>
    intro ys h
    simp only [resolveAll, Except.ok.injEq] at h
    simp [← h]
  | cons x rest ih =>
    intro ys h
    obtain ⟨p, r⟩ := x
    simp only [resolveAll] at h
    cases hr : resolveRecord fs r with
    | error e => rw [hr] at h; cases h
    | ok r2 =>
      rw [hr] at h
      cases ha : resolveAll fs rest with
      | error e => rw [ha] at h; cases h
      | ok rest2 =>
        rw [ha] at h
        simp only [Except.ok.injEq] at h
        subst h
        simp [ih ha]

theorem resolveAll_mem (fs : HostFS) :
    ∀ {xs ys : List (PurePosixPath × Record)}, resolveAll fs xs = .ok ys →
      ∀ {P : PurePosixPath} {val : Record}, (P, val) ∈ xs →
        ∃ r, (P, r) ∈ ys ∧ resolveRecord fs val = .ok r := by
  intro xs
  induction xs with
  | nil => intro ys _ P val hm; cases hm
  | cons x rest ih =>
    intro ys h P val hm
    obtain ⟨p, r⟩ := x
    simp only [resolveAll] at h
    cases hr : resolveRecord fs r with
    | error e => rw [hr] at h; cases h
    | ok r2 =>
      rw [hr] at h
      cases ha : resolveAll fs rest with
      | error e => rw [ha] at h; cases h
      | ok rest2 =>
        rw [ha] at h
        simp only [Except.ok.injEq] at h
        subst h
        rcases List.mem_cons.mp hm with he | hm'
        · obtain ⟨he1, he2⟩ := Prod.mk.injEq .. ▸ he
          subst he1; subst he2
          exact ⟨r2, by simp, hr⟩
        · obtain ⟨r', hr', hres⟩ := ih ha hm'
          exact ⟨r', by simp [hr'], hres⟩

/-- **C1.** For every Bundle (whose `files` mapping satisfies the dict
invariant) and host filesystem, if consuming `iter_files` succeeds with
sequence `l`, then: the output paths are strictly increasing (hence
unique — at most one record is emitted per path); and for any path `P`
with an explicit `files` entry — in particular one also matched by a
bundled glob — the record emitted for `P` is the resolution of that
explicit entry, regardless of the order in which bundles were merged
(the statement quantifies over every reachable `files`/`bundled_globs`
content). -/
theorem claim_c1_iter_files_sorted_explicit_wins (fs : HostFS) (b : Bundle)
    (hwf : DictWF b.files) {l : List (PurePosixPath × Record)}
    (h : b.iter_files fs = .ok l) :
    (l.map Prod.fst).Pairwise (· < ·) ∧
    (∀ P r r', (P, r) ∈ l → (P, r') ∈ l → r = r') ∧
    (∀ P val, dlookup P b.files = some val →
      ∃ r, (P, r) ∈ l ∧ resolveRecord fs val = .ok r) := by
  -- peel `iter_files` into its two stages
  rw [Bundle.iter_files] at h
  cases hp : b.iter_files_pairs fs with
  | error e => rw [hp] at h; cases h
  | ok pairs =>
    rw [hp] at h
    rw [Bundle.iter_files_pairs] at hp
    cases hg : resolveGlobs fs b.bundled_globs with
    | error e => rw [hg] at hp; cases hp
    | ok globbed =>
      rw [hg] at hp
      -- sortedness of the merged, sorted, deduplicated pairs
      have hsorted : ((b.files ++ globbed).mergeSort sortKey).Pairwise
          (fun x y : PurePosixPath × Record => x.1 ≤ y.1) := by
        have := @List.sorted_mergeSort _ sortKey
          sortKey_trans sortKey_total (b.files ++ globbed)
        exact this.imp (fun hab => by
          simpa [sortKey, decide_eq_true_eq] using hab)
      have hstrict : pairs.Pairwise (fun x y : PurePosixPath × Record => x.1 < y.1) :=
        uniq_sorted hsorted hp
      have hmapfst : l.map Prod.fst = pairs.map Prod.fst := resolveAll_map_fst fs h
      have hlstrict : (l.map Prod.fst).Pairwise (· < ·) := by
        rw [hmapfst, List.pairwise_map]
        exact hstrict
      refine ⟨hlstrict, ?_, ?_⟩
      · -- uniqueness per path
        intro P r r' hr hr'
        exact pairwise_fst_unique (List.pairwise_map.mp hlstrict) hr hr'
      · -- explicit entries win
        intro P val hv
        have hfil : b.files.filter (fun x => decide (x.1 = P)) = [(P, val)] :=
          dlookup_filter_singleton hwf hv
        have hfil2 : (b.files ++ globbed).filter (fun x => decide (x.1 = P)) =
            (P, val) :: globbed.filter (fun x => decide (x.1 = P)) := by
          rw [List.filter_append, hfil]
          rfl
        have hfil3 : ((b.files ++ globbed).mergeSort sortKey).filter
            (fun x => decide (x.1 = P)) =
            (P, val) :: globbed.filter (fun x => decide (x.1 = P)) := by
          rw [mergeSort_filter_stable _ _ (fun a b ha hb => by
            simp only [decide_eq_true_eq] at ha hb
            simp only [sortKey, ha, hb, decide_eq_true_eq]
            exact le_refl P), hfil2]
        have hmem : (P, val) ∈ pairs := uniq_mem_first hp hfil3
        exact resolveAll_mem fs h hmem

/-- A one-entry bundle for the C1 witness. -/
def bundleW : Bundle :=
  { files := [(⟨["/", "a"]⟩, Record.absent)] }

theorem bundleW_iter :
    Bundle.iter_files hostFS0 bundleW = .ok [(⟨["/", "a"]⟩, Record.absent)] := by
  have hpairs : Bundle.iter_files_pairs hostFS0 bundleW =
      .ok [(⟨["/", "a"]⟩, Record.absent)] := by
    simp only [Bundle.iter_files_pairs, bundleW, resolveGlobs, List.append_nil,
      List.mergeSort_singleton, uniq, uniqTail]
  simp only [Bundle.iter_files, hpairs, resolveAll, resolveRecord]

/-- Witness for C1 on a concrete bundle: one explicit entry, its path
emitted exactly once, with the explicit record. -/
theorem claim_c1_iter_files_sorted_explicit_wins_witness :
    DictWF bundleW.files ∧
    (((([(⟨["/", "a"]⟩, Record.absent)] : List (PurePosixPath × Record))).map
        Prod.fst).Pairwise (· < ·) ∧
      (∀ P r r', (P, r) ∈ ([(⟨["/", "a"]⟩, Record.absent)] :
          List (PurePosixPath × Record)) →
        (P, r') ∈ ([(⟨["/", "a"]⟩, Record.absent)] :
          List (PurePosixPath × Record)) → r = r') ∧
      (∀ P val, dlookup P bundleW.files = some val →
        ∃ r, (P, r) ∈ ([(⟨["/", "a"]⟩, Record.absent)] :
            List (PurePosixPath × Record)) ∧
          resolveRecord hostFS0 val = .ok r)) :=
  ⟨by simp [bundleW, DictWF],
   claim_c1_iter_files_sorted_explicit_wins hostFS0 bundleW
     (by simp [bundleW, DictWF]) bundleW_iter⟩

/-! ## C7: metadata precedence during resolution (`BundledEntry.__enter__`) -/

/-- **C7.** For every `BundledEntry` resolved against a host node: when
resolution succeeds, the resolved record's `atime` and `mtime` are the
explicitly declared values when the entry's metadata set them, and
otherwise the host node's recorded seconds/nanoseconds times — explicit
metadata always wins over host-discovered metadata. -/
theorem claim_c7_enter_time_precedence (fs : HostFS) (be : BundledEntry)
    (st : StatInfo) (r : Record)
    (hstat : fs.lstat be.source = .ok st)
    (h : be.enter fs = .ok r) :
    r.metaOf.atime = some (be.meta.atime.getD (nsSplit st.atimeNs)) ∧
    r.metaOf.mtime = some (be.meta.mtime.getD (nsSplit st.mtimeNs)) := by
  rw [BundledEntry.enter, hstat] at h
  simp only [] at h
  cases hk : st.kind <;> simp only [hk] at h
  case reg => injection h with h; rw [← h]; exact ⟨rfl, rfl⟩
  case blk => injection h with h; rw [← h]; exact ⟨rfl, rfl⟩
  case chr => injection h with h; rw [← h]; exact ⟨rfl, rfl⟩
  case dir => injection h with h; rw [← h]; exact ⟨rfl, rfl⟩
  case fifo => injection h with h; rw [← h]; exact ⟨rfl, rfl⟩
  case lnk => injection h with h; rw [← h]; exact ⟨rfl, rfl⟩
  case other => exact absurd h (by simp)

/-- Host filesystem for the C7 witness: a directory with known times. -/
def hostFS7 : HostFS where
  lstat := fun _ => .ok
    { kind := .dir, size := 0, atimeNs := 1500000000 * 10 ^ 9 + 7,
      mtimeNs := 1600000000 * 10 ^ 9 + 9 }
  readlink := fun _ => ⟨[]⟩
  openRead := fun _ => ⟨[], 0, true⟩
  glob := fun _ _ => []

/-- The C7 witness entry declares `mtime` explicitly but leaves `atime`
to host discovery. -/
def bundledEntry7 : BundledEntry :=
  { source := ⟨["/", "srv", "data"]⟩,
    meta := { mtime := some (42, 5) } }

/-- Witness for C7: the declared `mtime` survives, the undeclared `atime`
is filled from the host stat. -/
theorem claim_c7_enter_time_precedence_witness :
    hostFS7.lstat bundledEntry7.source = .ok
      { kind := .dir, size := 0, atimeNs := 1500000000 * 10 ^ 9 + 7,
        mtimeNs := 1600000000 * 10 ^ 9 + 9 } ∧
    bundledEntry7.enter hostFS7 = .ok
      (.directory { mtime := some (42, 5),
                    atime := some (1500000000, 7) }) ∧
    (Record.directory
        { mtime := some (42, 5), atime := some (1500000000, 7) }).metaOf.atime =
      some (bundledEntry7.meta.atime.getD
        (nsSplit (1500000000 * 10 ^ 9 + 7))) ∧
    (Record.directory
        { mtime := some (42, 5), atime := some (1500000000, 7) }).metaOf.mtime =
      some (bundledEntry7.meta.mtime.getD
        (nsSplit (1600000000 * 10 ^ 9 + 9))) := by
  have henter : bundledEntry7.enter hostFS7 = .ok
      (.directory { mtime := some (42, 5),
                    atime := some (1500000000, 7) }) := by
    rw [BundledEntry.enter]
    simp only [hostFS7, bundledEntry7]
    norm_num [nsSplit, Int.add_mul_ediv_left, Int.add_mul_emod_self_left]
  have hconc := claim_c7_enter_time_precedence hostFS7 bundledEntry7
    { kind := .dir, size := 0, atimeNs := 1500000000 * 10 ^ 9 + 7,
      mtimeNs := 1600000000 * 10 ^ 9 + 9 }
    (.directory { mtime := some (42, 5), atime := some (1500000000, 7) })
    rfl henter
  exact ⟨rfl, henter, hconc.1, hconc.2⟩

/-! ## Archive encoder (`override_generator/adapters/tar.py`) -/

/-- Tar entry type flags (`REGTYPE`, `DIRTYPE`, ...). -/
inductive TarType where
  | reg
  | dir
  | sym
  | blk
  | chr
  | fifo
deriving DecidableEq

/-- The fields of a `TarInfo` that `write_out` populates, pax headers
included. -/
structure TarInfo where
  typeflag : TarType
  name : String
  mode : Int
  uid : Int
  gid : Int
  uname : String
  gname : String
  mtime : Int
  size : Int := 0
  devmajor : Int := 0
  devminor : Int := 0
  linkname : String := ""
  paxHeaders : List (String × String) := []
deriving DecidableEq

/-- One archive entry as emitted: header plus optional content bytes
(`tar.addfile(tar_info, content)` reads `size` bytes from the stream's
current position). -/
structure TarOut where
  info : TarInfo
  content : Option (List Nat) := none
deriving DecidableEq

/-- `f'{t[0]}.{t[1]}'` for a seconds/nanoseconds pair. -/
def fmtTime (t : Int × Int) : String :=
  toString t.1 ++ "." ++ toString t.2

/-- `file.__class__.__name__` for the records `write_out` can see. -/
def Record.className : Record → String
  | .bundled _ => "BundledEntry"
  | .remote _ => "RemoteEntry"
  | .file _ => "File"
  | .directory _ => "Directory"
  | .pipe _ => "Pipe"
  | .device _ => "Device"
  | .symlink _ => "SymbolicLink"
  | .entryRec _ => "Entry"
  | .absent => "AbsentResource"
  | .package _ => "Package"
  | .user _ => "User"

/-- The records that fall into `write_out`'s final `else` branch. -/
def Record.isUnsupportedTar : Record → Bool
  | .bundled _ => true
  | .remote _ => true
  | .entryRec _ => true
  | .package _ => true
  | .user _ => true
  | _ => false

/-- The pax extended headers attached to every supported entry:
sub-second `atime`/`mtime` when present on the instance, and one
`SCHILY.xattr.<key>` per declared extended attribute. -/
def tarPax (m : EntryMeta) : List (String × String) :=
  (match m.atime with
   | some t => [("atime", fmtTime t)]
   | none => []) ++
  (match m.mtime with
   | some t => [("mtime", fmtTime t)]
   | none => []) ++
  m.xattrs.map (fun kv => ("SCHILY.xattr." ++ kv.1, kv.2))

/-- The common header fields (`name`, `mode`, ownership, whole-second
`mtime`, pax headers) for a supported record at `path`. -/
def tarCommon (t : TarType) (path : PurePosixPath) (file : Record) : TarInfo :=
  { typeflag := t
    name := path.toStr
    mode := file.modeD
    uid := file.metaOf.ownerD.idD
    gid := file.metaOf.groupD.idD
    uname := file.metaOf.ownerD.name
    gname := file.metaOf.groupD.name
    mtime := file.metaOf.mtimeD.1
    paxHeaders := tarPax file.metaOf }

/-- The loop body of `write_out` for one resolved pair: `none` entry with
a message for `AbsentResource` (skip) and for the unsupported `else`
branch; a header (plus content for regular files) and the per-entry
progress message otherwise. -/
def encodeOne (path : PurePosixPath) (file : Record) : Option TarOut × String :=
  match file with
  | .absent => (none, "skipping absent " ++ path.toStr ++ "...")
  | .device d =>
    match d.kind with
    | .block =>
      (some ⟨{ tarCommon .blk path file with
               devmajor := d.devmajor, devminor := d.devminor }, none⟩,
       path.toStr)
    | .character =>
      (some ⟨{ tarCommon .chr path file with
               devmajor := d.devmajor, devminor := d.devminor }, none⟩,
       path.toStr)
  | .directory _ => (some ⟨tarCommon .dir path file, none⟩, path.toStr)
  | .file f =>
    (some ⟨{ tarCommon .reg path file with size := f.length },
           some ((f.content.data.drop f.content.pos.toNat).take f.length.toNat)⟩,
     path.toStr)
  | .pipe _ => (some ⟨tarCommon .fifo path file, none⟩, path.toStr)
  | .symlink s =>
    (some ⟨{ tarCommon .sym path file with linkname := s.destination.toStr }, none⟩,
     path.toStr)
  | other => (none, path.toStr ++ ": Unsupported type " ++ other.className)

/-- `write_out` — consume the resolved sequence, emitting one archive
entry per supported pair in order, and a message per pair; the
unsupported `else` branch prints and `continue`s (it does not raise). -/
def write_out : List (PurePosixPath × Record) → List TarOut × List String
  | [] => ([], [])
  | (path, file) :: rest =>
    let (e, msg) := encodeOne path file
    let (es, ms) := write_out rest
    (match e with
     | some t => t :: es
     | none => es,
     msg :: ms)

/-- **C8 counterexample.** A `RemoteEntry` under a literal path reaches
the encoder followed by a directory entry: the run is *not* aborted — the
unsupported entry is skipped with a printed diagnostic and the directory
that follows it is still encoded. This contradicts the claim that such an
entry "is a fatal encode error that aborts the entire run rather than
skipping the entry and continuing". -/
theorem claim_c8_counterexample :
    (write_out [(⟨["/", "r"]⟩, Record.remote { meta := {} }),
                (⟨["/", "d"]⟩, Record.directory {})]).1 =
      [⟨tarCommon .dir ⟨["/", "d"]⟩ (Record.directory {}), none⟩] ∧
    (write_out [(⟨["/", "r"]⟩, Record.remote { meta := {} }),
                (⟨["/", "d"]⟩, Record.directory {})]).2 =
      ["/r: Unsupported type RemoteEntry", "/d"] := by
  constructor <;> rfl

/-- **C8, amended.** A resolved pair whose record is none of
`AbsentResource`, `Directory`, `Pipe`, `Device`, `SymbolicLink`, `File`
(e.g. a `RemoteEntry` under a literal path) is *skipped with a
diagnostic* — the emitted archive entries are exactly those of the same
sequence without it, and encoding continues with the remaining pairs
instead of aborting. -/
theorem claim_c8_amended_unsupported_skipped
    (xs ys : List (PurePosixPath × Record)) (p : PurePosixPath) (rec : Record)
    (h : rec.isUnsupportedTar = true) :
    (write_out (xs ++ (p, rec) :: ys)).1 = (write_out (xs ++ ys)).1 ∧
    (p.toStr ++ ": Unsupported type " ++ rec.className) ∈
      (write_out (xs ++ (p, rec) :: ys)).2 := by
  induction xs with
  | nil =>
    constructor
    · cases rec <;> simp [Record.isUnsupportedTar] at h <;>
        simp [write_out, encodeOne]
    · cases rec <;> simp [Record.isUnsupportedTar] at h <;>
        simp [write_out, encodeOne, Record.className]
  | cons x rest ih =>
    obtain ⟨q, r⟩ := x
    constructor
    · simp only [List.cons_append, write_out, List.append_eq]
      cases he : (encodeOne q r).1 <;> simp only [he] <;> rw [ih.1]
    · simp only [List.cons_append, write_out, List.append_eq, List.mem_cons]
      exact Or.inr ih.2

/-- Witness for the amended C8. -/
theorem claim_c8_amended_unsupported_skipped_witness :
    (Record.remote { meta := {} }).isUnsupportedTar = true ∧
    ((write_out ([] ++ (⟨["/", "r"]⟩, Record.remote { meta := {} }) ::
        [(⟨["/", "d"]⟩, Record.directory {})])).1 =
      (write_out ([] ++ [(⟨["/", "d"]⟩, Record.directory {})])).1 ∧
    (PurePosixPath.toStr ⟨["/", "r"]⟩ ++ ": Unsupported type " ++
        (Record.remote { meta := {} }).className) ∈
      (write_out ([] ++ (⟨["/", "r"]⟩, Record.remote { meta := {} }) ::
        [(⟨["/", "d"]⟩, Record.directory {})])).2) :=
  ⟨rfl, claim_c8_amended_unsupported_skipped []
    [(⟨["/", "d"]⟩, Record.directory {})] ⟨["/", "r"]⟩
    (Record.remote { meta := {} }) rfl⟩

/-- The C9 stream: exactly the two bytes of `b"hi"`, read position 0. -/
def stream9 : ByteStream := ⟨[104, 105], 0, true⟩

/-- **C9.** A `File` whose length is auto-computed from a seekable
two-byte stream: `__init__` sets the length to the stream's end position
(2) and restores the read position; encoding it produces an archive entry
of size 2 whose content bytes are the stream's bytes. -/
theorem claim_c9_file_roundtrip :
    (fileInit stream9 none false {}).length = 2 ∧
    (fileInit stream9 none false {}).content = stream9 ∧
    ((write_out [(⟨["/", "hi"]⟩,
        Record.file (fileInit stream9 none false {}))]).1.head?).map
      (fun t => (t.info.size, t.content)) = some (2, some [104, 105]) := by
  refine ⟨rfl, rfl, rfl⟩

/-! ## The structured-document tree (`confbundler/adapters/yaml.py`)

Nodes carry a raw scalar string (`ScalarNode.value` is always a string in
a parsed document), the value the external loader resolves the scalar to
(`construct_object`'s output for that node — tag resolution belongs to the
out-of-scope tokenizer/parser per §6 of the spec), and a source mark,
modelled as a line number. -/

/-- A decoded Python value flowing through `construct_object`, property
constructors and fallback functions.  `vpath`/`vppath` are `pathlib`
objects (fallback results are fed back through the property
constructors). -/
inductive Value where
  | vnull
  | vbool (b : Bool)
  | vint (n : Int)
  | vstr (s : String)
  | vbytes (bs : List Nat)
  | vlist (xs : List Value)
  | vmap (kvs : List (String × Value))
  | vpath (p : HostPath)
  | vppath (p : PurePosixPath)

/-- A YAML node: scalar (raw string + resolved value), sequence or
mapping, each with its start mark. -/
inductive Node where
  | scalar (value : String) (constructed : Value) (mark : Nat)
  | sequence (items : List Node) (mark : Nat)
  | mapping (pairs : List (Node × Node)) (mark : Nat)

/-- `node.start_mark`. -/
def Node.mark : Node → Nat
  | .scalar _ _ m => m
  | .sequence _ m => m
  | .mapping _ m => m

/-- `node.id` (used in error messages). -/
def Node.nodeId : Node → String
  | .scalar _ _ _ => "scalar"
  | .sequence _ _ => "sequence"
  | .mapping _ _ => "mapping"

/-- The raw string of a scalar node (mapping keys in decoded values). -/
def Node.keyRaw : Node → String
  | .scalar v _ _ => v
  | _ => ""

mutual

/-- `construct_object(node, deep=True)`: scalars resolve to their
constructed value, sequences to lists, mappings to string-keyed dicts. -/
def constructObject : Node → Value
  | .scalar _ c _ => c
  | .sequence items _ => .vlist (constructObjectList items)
  | .mapping pairs _ => .vmap (constructObjectPairs pairs)

def constructObjectList : List Node → List Value
  | [] => []
  | n :: ns => constructObject n :: constructObjectList ns

def constructObjectPairs : List (Node × Node) → List (String × Value)
  | [] => []
  | (k, v) :: rest => (k.keyRaw, constructObject v) :: constructObjectPairs rest

end

/-- `str(value)` for the values that can reach it. -/
def pyStr : Value → String
  | .vstr s => s
  | .vint n => toString n
  | .vbool b => if b then "True" else "False"
  | .vnull => "None"
  | _ => "object"

/-- A value constructed for one record property (what `props[name]`
holds). -/
inductive PropValue where
  | pvPath (p : HostPath)
  | pvPPath (p : PurePosixPath)
  | pvStream (s : ByteStream)
  | pvKind (k : DevKind)
  | pvInt (n : Int)
  | pvUser (u : User)
  | pvGroup (g : Group)
  | pvXattrs (kvs : List (String × String))
  | pvStr (s : String)
  | pvTime (t : Int × Int)
deriving DecidableEq

/-- The value constructors appearing in the shipped type specifications
(`Path`, `PurePosixPath`, `BytesIO`, `Device.Kind`, `int`, `User`,
`Group`, `_parse_time`, `dict`, `str`). -/
inductive PropCtor where
  | pathC
  | ppathC
  | bytesC
  | devKindC
  | intC
  | userC
  | groupC
  | timeC
  | dictC
  | strC
deriving DecidableEq

/-- `Path(s)` parses like `PurePosixPath` on a POSIX host. -/
def HostPath.parse (s : String) : HostPath :=
  ⟨(PurePosixPath.parse s).parts⟩

/-- A property constructor applied to one argument (the scalar shape and
the fallback-value shape).  Inapplicable argument kinds raise `TypeError`
or `ValueError` (`Device.Kind` of an unknown string, `BytesIO` of a
non-bytes value, `int` of a non-numeric string, `_parse_time` of
anything — the source's `_parse_time` always raises
`NotImplementedError`). -/
def callSingle : PropCtor → Value → Except PyErr PropValue
  | .pathC, .vstr s => .ok (.pvPath (HostPath.parse s))
  | .pathC, .vpath p => .ok (.pvPath p)
  | .pathC, .vppath p => .ok (.pvPath ⟨p.parts⟩)
  | .pathC, _ => .error (.py "TypeError: invalid Path argument")
  | .ppathC, .vstr s => .ok (.pvPPath (PurePosixPath.parse s))
  | .ppathC, .vppath p => .ok (.pvPPath p)
  | .ppathC, .vpath p => .ok (.pvPPath ⟨p.parts⟩)
  | .ppathC, _ => .error (.py "TypeError: invalid PurePosixPath argument")
  | .bytesC, .vbytes bs => .ok (.pvStream ⟨bs, 0, true⟩)
  | .bytesC, _ => .error (.py "TypeError: a bytes-like object is required")
  | .devKindC, .vstr s =>
    if s = "b" then .ok (.pvKind .block)
    else if s = "c" then .ok (.pvKind .character)
    else .error (.py "ValueError: not a valid Device.Kind")
  | .devKindC, _ => .error (.py "ValueError: not a valid Device.Kind")
  | .intC, .vint n => .ok (.pvInt n)
  | .intC, .vbool b => .ok (.pvInt (if b then 1 else 0))
  | .intC, .vstr s =>
    match s.toInt? with
    | some n => .ok (.pvInt n)
    | none => .error (.py "ValueError: invalid literal for int")
  | .intC, _ => .error (.py "TypeError: invalid int argument")
  | .userC, .vstr s => .ok (.pvUser ⟨s, none, []⟩)
  | .userC, _ => .error (.py "TypeError: invalid User argument")
  | .groupC, .vstr s => .ok (.pvGroup ⟨s, none⟩)
  | .groupC, _ => .error (.py "TypeError: invalid Group argument")
  | .timeC, _ => .error (.py "NotImplementedError")
  | .dictC, .vmap kvs => .ok (.pvXattrs (kvs.map (fun kv => (kv.1, pyStr kv.2))))
  | .dictC, _ => .error (.py "TypeError: invalid dict argument")
  | .strC, v => .ok (.pvStr (pyStr v))

/-- Keyword expansion `constructor(**mapping)`: of the shipped
constructors only `User`/`Group` accept keywords (`name` required, `id`
optional; `groups` content is not reachable from the shipped
specifications). -/
def callKw : PropCtor → List (String × Value) → Except PyErr PropValue
  | .userC, kvs =>
    match dlookup "name" kvs with
    | some (.vstr s) =>
      .ok (.pvUser ⟨s,
        (match dlookup "id" kvs with
         | some (.vint n) => some n
         | _ => none), []⟩)
    | _ => .error (.py "TypeError: invalid User keyword arguments")
  | .groupC, kvs =>
    match dlookup "name" kvs with
    | some (.vstr s) =>
      .ok (.pvGroup ⟨s,
        (match dlookup "id" kvs with
         | some (.vint n) => some n
         | _ => none)⟩)
    | _ => .error (.py "TypeError: invalid Group keyword arguments")
  | .timeC, _ => .error (.py "NotImplementedError")
  | _, _ => .error (.py "TypeError: unexpected keyword arguments")

/-- Positional expansion `constructor(*sequence)`: the one-element case
coincides with the scalar shape; multi-argument positional forms are not
reachable from the shipped specifications and raise. -/
def callPos : PropCtor → List Value → Except PyErr PropValue
  | .timeC, _ => .error (.py "NotImplementedError")
  | c, [x] => callSingle c x
  | _, _ => .error (.py "TypeError: unexpected positional arguments")

/-- The three-shape dispatch of `Loader._construct`: associative value →
keyword expansion, sequence → positional expansion, scalar → single
argument. -/
def callCtor (c : PropCtor) (constructed : Value) : Except PyErr PropValue :=
  match constructed with
  | .vmap kvs => callKw c kvs
  | .vlist xs => callPos c xs
  | v => callSingle c v

/-- The fallback callables of the shipped specifications:
`_bundled_source_fallback` and `lambda _, index: index`. -/
inductive FallbackFn where
  | bundledSource
  | identityIndex
deriving DecidableEq

/-- `prop.required(self, index)`: `_bundled_source_fallback` joins the
manifest root with the declared path (for a literal path identity) or
returns the root itself (for a pattern identity); the identity fallback
returns the identity. -/
def evalFallback : FallbackFn → HostPath → Value → Except PyErr Value
  | .bundledSource, root, .vppath p =>
    if p.isAbsolute then .ok (.vpath (root.join p.parts.tail))
    else .error (.py "ValueError: path does not start with /")
  | .bundledSource, root, _ => .ok (.vpath root)
  | .identityIndex, _, idx => .ok idx

/-- `ExpectedProperty.required`: `True`, `False`, or a fallback callable. -/
inductive PropRequired where
  | yes
  | no
  | fb (f : FallbackFn)
deriving DecidableEq

/-- `ExpectedProperty`. -/
structure ExpectedProperty where
  name : String
  ctor : PropCtor
  required : PropRequired
deriving DecidableEq

/-- The concrete record classes (tags for `type(...)` dispatch and
`issubclass`). -/
inductive RecordType where
  | bundledEntryT
  | remoteEntryT
  | fileT
  | directoryT
  | pipeT
  | deviceT
  | symbolicLinkT
  | entryT
  | absentResourceT
  | packageT
  | userT
deriving DecidableEq

/-- The classes deriving from `Entry`. -/
def RecordType.isEntrySubtype : RecordType → Bool
  | .bundledEntryT => true
  | .remoteEntryT => true
  | .fileT => true
  | .directoryT => true
  | .pipeT => true
  | .deviceT => true
  | .symbolicLinkT => true
  | .entryT => true
  | _ => false

/-- `issubclass(sub, sup)` over the record classes.  `AbsentResource`,
`Package` and `User` are unrelated to `Entry` (AbsentResource is
modelled from the spec as a metadata-free tombstone, its class not being
among the sources). -/
def isSubclass (sub sup : RecordType) : Bool :=
  sub = sup || (sup = .entryT && sub.isEntrySubtype)

/-- `SerializedTypeSpecification`. -/
structure SerializedTypeSpecification where
  default : RecordType
  states : List (String × RecordType)
  properties : List (RecordType × List ExpectedProperty)

/-- `files_spec` — the type specification for `files` elements. -/
def files_spec : SerializedTypeSpecification where
  default := .bundledEntryT
  states := [("from-host", .bundledEntryT), ("from-target", .remoteEntryT),
             ("file", .fileT), ("directory", .directoryT),
             ("character-device", .deviceT), ("block-device", .deviceT),
             ("symbolic-link", .symbolicLinkT), ("pipe", .pipeT),
             ("absent", .absentResourceT)]
  properties :=
    [(.bundledEntryT, [⟨"source", .pathC, .fb .bundledSource⟩]),
     (.remoteEntryT, [⟨"source", .ppathC, .fb .identityIndex⟩]),
     (.fileT, [⟨"content", .bytesC, .yes⟩]),
     (.deviceT, [⟨"kind", .devKindC, .yes⟩, ⟨"minor", .intC, .yes⟩,
                 ⟨"major", .intC, .yes⟩]),
     (.entryT, [⟨"owner", .userC, .no⟩, ⟨"group", .groupC, .no⟩,
                ⟨"mode", .intC, .no⟩, ⟨"atime", .timeC, .no⟩,
                ⟨"mtime", .timeC, .no⟩, ⟨"xattrs", .dictC, .no⟩])]

/-- `packages_spec`.  `Package` is modelled from the spec (name plus
present/absent state; `confbundler/types/package.py` is not among the
sources). -/
def packages_spec : SerializedTypeSpecification where
  default := .packageT
  states := [("installed", .packageT), ("absent", .absentResourceT)]
  properties := [(.packageT, [⟨"name", .strC, .fb .identityIndex⟩])]

/-- `users_spec`. -/
def users_spec : SerializedTypeSpecification where
  default := .userT
  states := [("present", .userT), ("absent", .absentResourceT)]
  properties := [(.userT, [⟨"name", .strC, .fb .identityIndex⟩])]

/-! ## Record construction (`entry_type(**props)`) -/

/-- `Entry.__init__(**kwargs)` applied to the leftover keyword
arguments: only the six metadata keywords are accepted; anything else is
a `TypeError` (`Entry.__init__` takes no `**kwargs`).  The value-kind
mismatches cannot arise from the shipped specifications. -/
def entryMetaOfKwargs : List (String × PropValue) → Except PyErr EntryMeta
  | [] => .ok {}
  | (k, v) :: rest =>
    match entryMetaOfKwargs rest with
    | .error e => .error e
    | .ok m =>
      if k = "owner" then
        match v with
        | .pvUser u => .ok { m with owner := some u }
        | _ => .error (.py "TypeError: invalid owner value")
      else if k = "group" then
        match v with
        | .pvGroup g => .ok { m with group := some g }
        | _ => .error (.py "TypeError: invalid group value")
      else if k = "mode" then
        match v with
        | .pvInt n => .ok { m with mode := some n }
        | _ => .error (.py "TypeError: invalid mode value")
      else if k = "atime" then
        match v with
        | .pvTime t => .ok { m with atime := some t }
        | _ => .error (.py "TypeError: invalid atime value")
      else if k = "mtime" then
        match v with
        | .pvTime t => .ok { m with mtime := some t }
        | _ => .error (.py "TypeError: invalid mtime value")
      else if k = "xattrs" then
        match v with
        | .pvXattrs kvs => .ok { m with xattrs := kvs }
        | _ => .error (.py "TypeError: invalid xattrs value")
      else .error (.py ("TypeError: unexpected keyword argument " ++ k))

/-- The class tag of a record. -/
def Record.recordType : Record → RecordType
  | .bundled _ => .bundledEntryT
  | .remote _ => .remoteEntryT
  | .file _ => .fileT
  | .directory _ => .directoryT
  | .pipe _ => .pipeT
  | .device _ => .deviceT
  | .symlink _ => .symbolicLinkT
  | .entryRec _ => .entryT
  | .absent => .absentResourceT
  | .package _ => .packageT
  | .user _ => .userT

/-- `entry_type(**props)` — call the chosen class with the constructed
properties as keyword arguments, with Python's binding rules:
keywords bind by parameter *name*; a keyword matching no parameter goes
to `**kwargs` (forwarded to `Entry.__init__`, which rejects unknown
names); a missing required positional parameter is a `TypeError` before
the body runs.  In particular `Device.__init__(self, kind, devmajor,
devminor, **kwargs)` never receives `devmajor`/`devminor` from the
specification (which constructs keys `major`/`minor`), so device
construction raises `TypeError`. -/
def mkRecord (t : RecordType) (props : List (String × PropValue)) :
    Except PyErr Record :=
  match t with
  | .bundledEntryT =>
    match dlookup "source" props with
    | some (.pvPath p) =>
      match entryMetaOfKwargs (dremove "source" props) with
      | .error e => .error e
      | .ok m => .ok (.bundled ⟨p, m⟩)
    | some _ => .error (.py "TypeError: invalid source value")
    | none => .error (.py "TypeError: BundledEntry.__init__ missing required positional argument: source")
  | .remoteEntryT =>
    match dlookup "source" props with
    | some (.pvPPath p) =>
      match entryMetaOfKwargs (dremove "source" props) with
      | .error e => .error e
      | .ok m => .ok (.remote ⟨some p, m⟩)
    | some _ => .error (.py "TypeError: invalid source value")
    | none =>
      match entryMetaOfKwargs props with
      | .error e => .error e
      | .ok m => .ok (.remote ⟨none, m⟩)
  | .fileT =>
    match dlookup "content" props with
    | some (.pvStream s) =>
      match entryMetaOfKwargs (dremove "content" props) with
      | .error e => .error e
      | .ok m => .ok (.file (fileInit s none false m))
    | some _ => .error (.py "TypeError: invalid content value")
    | none => .error (.py "TypeError: File.__init__ missing required positional argument: content")
  | .directoryT =>
    match entryMetaOfKwargs props with
    | .error e => .error e
    | .ok m => .ok (.directory m)
  | .pipeT =>
    match entryMetaOfKwargs props with
    | .error e => .error e
    | .ok m => .ok (.pipe m)
  | .deviceT =>
    match dlookup "kind" props, dlookup "devmajor" props,
        dlookup "devminor" props with
    | some (.pvKind k), some (.pvInt ma), some (.pvInt mi) =>
      match entryMetaOfKwargs
          (dremove "devminor" (dremove "devmajor" (dremove "kind" props))) with
      | .error e => .error e
      | .ok m => .ok (.device ⟨k, ma, mi, m⟩)
    | _, _, _ =>
      .error (.py "TypeError: Device.__init__ missing required positional arguments: devmajor and devminor")
  | .symbolicLinkT =>
    match dlookup "destination" props with
    | some (.pvPPath p) =>
      match entryMetaOfKwargs (dremove "destination" props) with
      | .error e => .error e
      | .ok m => .ok (.symlink ⟨p, m⟩)
    | some _ => .error (.py "TypeError: invalid destination value")
    | none => .error (.py "TypeError: SymbolicLink.__init__ missing required positional argument: destination")
  | .entryT =>
    match entryMetaOfKwargs props with
    | .error e => .error e
    | .ok m => .ok (.entryRec m)
  | .absentResourceT =>
    -- Modelled from the spec: AbsentResource (confbundler/types/__init__.py
    -- is not among the sources) is a tombstone carrying no metadata; it
    -- accepts no constructor properties.
    match props with
    | [] => .ok .absent
    | _ => .error (.py "TypeError: AbsentResource takes no arguments")
  | .packageT =>
    -- Modelled from the spec: Package (confbundler/types/package.py is not
    -- among the sources) is a name plus present/absent state; absence is
    -- encoded by AbsentResource, so the record is the name.
    match dlookup "name" props with
    | some (.pvStr s) => .ok (.package s)
    | _ => .error (.py "TypeError: User-defined Package missing name")
  | .userT =>
    match dlookup "name" props with
    | some (.pvStr s) =>
      .ok (.user ⟨s,
        (match dlookup "id" props with
         | some (.pvInt n) => some n
         | _ => none), []⟩)
    | _ => .error (.py "TypeError: User.__init__ missing required positional argument: name")

/-! ## `Loader._construct` -/

/-- Index the top-level keys of an associative node into a property
table; non-scalar keys are silently skipped (the source's `FIXME`
branch). -/
def buildPropTable (pairs : List (Node × Node)) : List (String × Node) :=
  pairs.foldl
    (fun acc kv =>
      match kv.1 with
      | .scalar raw _ _ => dinsert raw kv.2 acc
      | _ => acc) []

/-- The `state` discriminator step: pop `state` from the table when
present; a non-scalar state is a fatal decode error, an unrecognized
state string is a fatal decode error naming the value; otherwise the
mapped type (or the specification default when absent) is chosen. -/
def stateStep (spec : SerializedTypeSpecification)
    (table : List (String × Node)) :
    Except PyErr (RecordType × List (String × Node)) :=
  match dlookup "state" table with
  | none => .ok (spec.default, table)
  | some stateNode =>
    match stateNode with
    | .scalar sv _ smark =>
      match dlookup sv spec.states with
      | some t => .ok (t, dremove "state" table)
      | none => .error (.ctor ⟨"unsupported state " ++ sv, some smark⟩)
    | other => .error (.ctor ⟨"expected a string", some other.mark⟩)

/-- One expected property: pop it from the table and construct it, or
fall back (required → fatal decode error at the enclosing node's mark;
fallback callable → its value through the constructor; optional →
skipped). -/
def consumeProp (root : HostPath) (index : Option Value)
    (fallbackMark : Option Nat)
    (st : List (String × PropValue) × List (String × Node))
    (prop : ExpectedProperty) :
    Except PyErr (List (String × PropValue) × List (String × Node)) :=
  match dlookup prop.name st.2 with
  | some valNode =>
    match callCtor prop.ctor (constructObject valNode) with
    | .error e => .error e
    | .ok pv => .ok (dinsert prop.name pv st.1, dremove prop.name st.2)
  | none =>
    match prop.required with
    | .yes =>
      .error (.ctor ⟨"required property " ++ prop.name ++ " not found",
        fallbackMark⟩)
    | .fb f =>
      match evalFallback f root (index.getD .vnull) with
      | .error e => .error e
      | .ok v =>
        match callCtor prop.ctor v with
        | .error e => .error e
        | .ok pv => .ok (dinsert prop.name pv st.1, st.2)
    | .no => .ok st

/-- Resolve one expected-property list in declaration order. -/
def consumePropList (root : HostPath) (index : Option Value)
    (fallbackMark : Option Nat) :
    List ExpectedProperty →
    (List (String × PropValue) × List (String × Node)) →
    Except PyErr (List (String × PropValue) × List (String × Node))
  | [], st => .ok st
  | p :: ps, st =>
    match consumeProp root index fallbackMark st p with
    | .error e => .error e
    | .ok st2 => consumePropList root index fallbackMark ps st2

/-- Walk the validation table, resolving the expected properties of
every row whose type the chosen record type derives from. -/
def consumeProps (root : HostPath) (index : Option Value)
    (fallbackMark : Option Nat) (entryType : RecordType) :
    List (RecordType × List ExpectedProperty) →
    (List (String × PropValue) × List (String × Node)) →
    Except PyErr (List (String × PropValue) × List (String × Node))
  | [], st => .ok st
  | (t, eprops) :: rest, st =>
    if isSubclass entryType t then
      match consumePropList root index fallbackMark eprops st with
      | .error e => .error e
      | .ok st2 => consumeProps root index fallbackMark entryType rest st2
    else consumeProps root index fallbackMark entryType rest st

/-- `Loader._construct` — the schema-driven decode of one node against a
type specification: index the properties, resolve the `state`
discriminator, resolve the expected properties, report every leftover
key as a non-fatal "unrecognized property" diagnostic, then construct
the record.  Returns the result together with the warnings emitted up to
the point the result was produced. -/
def constructRecord (root : HostPath) (spec : SerializedTypeSpecification)
    (pairs? : Option (List (Node × Node))) (index : Option Value)
    (fallbackMark : Option Nat) : Except PyErr Record × List Warning :=
  let table0 := match pairs? with
    | none => []
    | some prs => buildPropTable prs
  match stateStep spec table0 with
  | .error e => (.error e, [])
  | .ok (entryType, table1) =>
    match consumeProps root index fallbackMark entryType
        spec.properties ([], table1) with
    | .error e => (.error e, [])
    | .ok (props, leftover) =>
      let warns := leftover.map
        (fun kv =>
          Warning.ctorWarn ("unrecognized property " ++ kv.1)
            (some kv.2.mark))
      (mkRecord entryType props, warns)

/-! ## Node unpacking, path identity parsing, element construction -/

/-- `_unpack_node` — a scalar element stands alone; an associative
element contributes its first pair, whose key must be a scalar and whose
value must be a mapping; an empty mapping and any other node kind are
fatal decode errors.  Returns the key's raw string and mark plus the
value mapping's pairs. -/
def unpackNode : Node → Except PyErr ((String × Nat) × Option (List (Node × Node)))
  | .scalar v _ m => .ok ((v, m), none)
  | .mapping [] m => .error (.ctor ⟨"found an empty node", some m⟩)
  | .mapping ((k, val) :: _) _ =>
    match k with
    | .scalar kv _ km =>
      match val with
      | .mapping prs _ => .ok ((kv, km), some prs)
      | other => .error (.ctor ⟨"expected a mapping", some other.mark⟩)
    | other => .error (.ctor ⟨"expected a scalar", some other.mark⟩)
  | .sequence _ m =>
    .error (.ctor ⟨"expected a scalar or a mapping, but found sequence", some m⟩)

/-- `_parse_path_node` — a key containing any of the characters of the
string `'*?[]'` is kept as a glob pattern string (prefixed with `/`,
with a non-fatal diagnostic, when relative); any other key is parsed as
a `PurePosixPath` and re-rooted at `/`, with a non-fatal diagnostic when
it was not absolute. -/
def parse_path_node (value : String) (mark : Nat) :
    (String ⊕ PurePosixPath) × List Warning :=
  if value.data.any (fun c => c == '*' || c == '?' || c == '[' || c == ']') then
    if ¬ value.data.head? = some '/' then
      (Sum.inl ("/" ++ value),
       [.ctorWarn ("path " ++ value ++ " is not absolute") (some mark)])
    else (Sum.inl value, [])
  else
    let path := PurePosixPath.parse value
    (Sum.inr path.rootJoin,
     if ¬ path.isAbsolute = true then
       [.ctorWarn ("path " ++ path.toStr ++ " is not absolute") (some mark)]
     else [])

/-- `Loader.construct_file`. -/
def construct_file (root : HostPath) (node : Node) :
    Except PyErr ((String ⊕ PurePosixPath) × Record) × List Warning :=
  match unpackNode node with
  | .error e => (.error e, [])
  | .ok ((v, pm), pairs?) =>
    let pw := parse_path_node v pm
    let index : Value :=
      match pw.1 with
      | .inl s => .vstr s
      | .inr p => .vppath p
    match constructRecord root files_spec pairs? (some index) (some node.mark) with
    | (.error e, ws2) => (.error e, pw.2 ++ ws2)
    | (.ok rec, ws2) => (.ok (pw.1, rec), pw.2 ++ ws2)

/-- `Loader.construct_package` (the name scalar of a parsed document is
always a string, so the `isinstance` guard never fires in the model). -/
def construct_package (root : HostPath) (node : Node) :
    Except PyErr (String × Record) × List Warning :=
  match unpackNode node with
  | .error e => (.error e, [])
  | .ok ((name, _), pairs?) =>
    match constructRecord root packages_spec pairs? (some (.vstr name))
        (some node.mark) with
    | (.error e, ws) => (.error e, ws)
    | (.ok rec, ws) => (.ok (name, rec), ws)

/-- `Loader.construct_user`. -/
def construct_user (root : HostPath) (node : Node) :
    Except PyErr (String × Record) × List Warning :=
  match unpackNode node with
  | .error e => (.error e, [])
  | .ok ((name, _), pairs?) =>
    match constructRecord root users_spec pairs? (some (.vstr name))
        (some node.mark) with
    | (.error e, ws) => (.error e, ws)
    | (.ok rec, ws) => (.ok (name, rec), ws)

/-! ## Bundle document assembly (`Loader.construct_bundle`) -/

/-- One `files` element: a `ConstructorError` is caught, downgraded to a
`FileOmittedWarning` and the element is skipped; any other raised
exception propagates; a decoded pair is routed to `files`,
`bundled_globs` or `remote_globs` by its identity and record class, an
inline literal record under a pattern identity being dropped with a
non-fatal diagnostic. -/
def processFileElem (root : HostPath) (b : Bundle) (e : Node) :
    Except PyErr Bundle × List Warning :=
  match construct_file root e with
  | (.error (.ctor err), ws) =>
    (.ok b, ws ++ [.fileOmitted err.problem err.mark])
  | (.error (.py m), ws) => (.error (.py m), ws)
  | (.ok (.inr path, rec), ws) =>
    (.ok { b with files := dinsert path rec b.files }, ws)
  | (.ok (.inl pat, rec), ws) =>
    match rec with
    | .remote re =>
      (.ok { b with remote_globs := dinsert pat re b.remote_globs }, ws)
    | .bundled be =>
      (.ok { b with bundled_globs := dinsert pat be b.bundled_globs }, ws)
    | _ =>
      (.ok b,
       ws ++ [.fileOmitted "globbing with literal files is not supported yet"
         (some e.mark)])

/-- The element loop shared by the three sections (and the top-level
pair loop): thread the bundle through the per-element step, accumulating
warnings in order, stopping at the first uncaught exception. -/
def foldElems {A : Type _}
    (step : Bundle → A → Except PyErr Bundle × List Warning) :
    Bundle → List A → Except PyErr Bundle × List Warning
  | b, [] => (.ok b, [])
  | b, e :: rest =>
    match step b e with
    | (.ok b2, ws) =>
      match foldElems step b2 rest with
      | (r, ws2) => (r, ws ++ ws2)
    | (.error er, ws) => (.error er, ws)

/-- The `files` section loop. -/
def processFiles (root : HostPath) (b : Bundle) (elems : List Node) :
    Except PyErr Bundle × List Warning :=
  foldElems (processFileElem root) b elems

/-- One `packages` element (`ConstructorError` downgraded to a
`ConstructorWarning`). -/
def processPackageElem (root : HostPath) (b : Bundle) (e : Node) :
    Except PyErr Bundle × List Warning :=
  match construct_package root e with
  | (.error (.ctor err), ws) => (.ok b, ws ++ [.ctorWarn err.problem err.mark])
  | (.error (.py m), ws) => (.error (.py m), ws)
  | (.ok (name, rec), ws) =>
    (.ok { b with packages := dinsert name rec b.packages }, ws)

/-- The `packages` section loop. -/
def processPackages (root : HostPath) (b : Bundle) (elems : List Node) :
    Except PyErr Bundle × List Warning :=
  foldElems (processPackageElem root) b elems

/-- One `users` element. -/
def processUserElem (root : HostPath) (b : Bundle) (e : Node) :
    Except PyErr Bundle × List Warning :=
  match construct_user root e with
  | (.error (.ctor err), ws) => (.ok b, ws ++ [.ctorWarn err.problem err.mark])
  | (.error (.py m), ws) => (.error (.py m), ws)
  | (.ok (name, rec), ws) =>
    (.ok { b with users := dinsert name rec b.users }, ws)

/-- The `users` section loop. -/
def processUsers (root : HostPath) (b : Bundle) (elems : List Node) :
    Except PyErr Bundle × List Warning :=
  foldElems (processUserElem root) b elems

/-- One top-level document pair: a non-scalar key or a non-sequence
value is skipped with a non-fatal diagnostic, an unrecognized section
name likewise; the three recognized sections run their loops. -/
def processSection (root : HostPath) (b : Bundle) (key value : Node) :
    Except PyErr Bundle × List Warning :=
  match key with
  | .scalar kv _ km =>
    match value with
    | .sequence elems _ =>
      if kv = "files" then processFiles root b elems
      else if kv = "packages" then processPackages root b elems
      else if kv = "users" then processUsers root b elems
      else (.ok b, [.ctorWarn ("unrecognized key " ++ kv) (some km)])
    | other =>
      (.ok b,
       [.ctorWarn ("expected a sequence, found " ++ other.nodeId ++ ", skipping")
         (some other.mark)])
  | other =>
    (.ok b,
     [.ctorWarn ("expected a scalar, found " ++ other.nodeId ++ ", skipping")
       (some other.mark)])

/-- The top-level loop over document pairs. -/
def processSections (root : HostPath) (b : Bundle)
    (pairs : List (Node × Node)) : Except PyErr Bundle × List Warning :=
  foldElems (fun b kv => processSection root b kv.1 kv.2) b pairs

/-- `Loader.construct_bundle` — a non-mapping document is a fatal decode
error; otherwise every top-level pair is processed into a fresh Bundle. -/
def construct_bundle (root : HostPath) (node : Node) :
    Except PyErr Bundle × List Warning :=
  match node with
  | .mapping pairs _ => processSections root {} pairs
  | other =>
    (.error (.ctor ⟨"expected a bundle node, but found " ++ other.nodeId,
       some other.mark⟩), [])

/-! ## C3: device decoding crashes on the property-name mismatch -/

/-- A manifest root for concrete decodes. -/
def hostRoot : HostPath := ⟨["/", "bundle"]⟩

/-- The associative element body
`{state: character-device, kind: c, major: 5, minor: 1}`. -/
def deviceNodePairs : List (Node × Node) :=
  [(.scalar "state" (.vstr "state") 1,
    .scalar "character-device" (.vstr "character-device") 1),
   (.scalar "kind" (.vstr "kind") 2, .scalar "c" (.vstr "c") 2),
   (.scalar "major" (.vstr "major") 3, .scalar "5" (.vint 5) 3),
   (.scalar "minor" (.vstr "minor") 4, .scalar "1" (.vint 1) 4)]

/-- **C3 (code bug).** Decoding a well-formed `character-device` element
that supplies `kind`, `major` and `minor` does *not* return a Device
record: the specification constructs the properties under the keys
`major`/`minor`, but `Device.__init__`'s positional parameters are named
`devmajor`/`devminor`, so `entry_type(**props)` raises `TypeError`
(outside the catchable `ConstructorError` hierarchy). -/
theorem claim_c3_device_decode_raises_type_error :
    constructRecord hostRoot files_spec (some deviceNodePairs)
      (some (.vppath ⟨["/", "dev", "x"]⟩)) (some 0) =
      (.error (.py "TypeError: Device.__init__ missing required positional arguments: devmajor and devminor"),
       []) := by
  rfl

/-! ## C4: the `state` discriminator -/

theorem dcontains_dremove_self {v : Type _} (k : String)
    (t : List (String × v)) : dcontains k (dremove k t) = false := by
  rw [dcontains, dremove, List.any_filter, List.any_eq_false]
  intro x hx
  by_cases hp : x.1 = k <;> simp [hp]

theorem dcontains_dremove_false {v : Type _} (k n : String)
    {t : List (String × v)} (h : dcontains k t = false) :
    dcontains k (dremove n t) = false := by
  induction t with
  | nil => rfl
  | cons p rest ih =>
    simp only [dcontains, List.any_cons, Bool.or_eq_false_iff] at h
    by_cases hp : p.1 = n
    · simpa [dremove, hp] using ih h.2
    · have := ih h.2
      simpa [dremove, dcontains, hp, h.1] using this

theorem consumeProp_not_contains {root : HostPath} {index : Option Value}
    {fmark : Option Nat}
    {st st' : List (String × PropValue) × List (String × Node)}
    {prop : ExpectedProperty} {k : String}
    (h : consumeProp root index fmark st prop = .ok st')
    (hk : dcontains k st.2 = false) : dcontains k st'.2 = false := by
  rw [consumeProp] at h
  cases hl : dlookup prop.name st.2 with
  | some valNode =>
    rw [hl] at h
    simp only [] at h
    cases hc : callCtor prop.ctor (constructObject valNode) with
    | error e => rw [hc] at h; simp only [] at h; cases h
    | ok pv =>
      rw [hc] at h
      simp only [] at h
      injection h with h
      rw [← h]
      exact dcontains_dremove_false k prop.name hk
  | none =>
    rw [hl] at h
    simp only [] at h
    cases hr : prop.required with
    | yes => rw [hr] at h; simp only [] at h; cases h
    | no =>
      rw [hr] at h
      simp only [] at h
      injection h with h
      rw [← h]; exact hk
    | fb f =>
      rw [hr] at h
      simp only [] at h
      cases he : evalFallback f root (index.getD .vnull) with
      | error e => rw [he] at h; simp only [] at h; cases h
      | ok v =>
        rw [he] at h
        simp only [] at h
        cases hc : callCtor prop.ctor v with
        | error e => rw [hc] at h; simp only [] at h; cases h
        | ok pv =>
          rw [hc] at h
          simp only [] at h
          injection h with h
          rw [← h]; exact hk

theorem consumePropList_not_contains {root : HostPath} {index : Option Value}
    {fmark : Option Nat} {k : String} :
    ∀ {ps : List ExpectedProperty}
      {st st' : List (String × PropValue) × List (String × Node)},
      consumePropList root index fmark ps st = .ok st' →
      dcontains k st.2 = false → dcontains k st'.2 = false := by
  intro ps
  induction ps with
  | nil =>
    intro st st' h hk
    rw [consumePropList] at h
    injection h with h
    rw [← h]; exact hk
  | cons p rest ih =>
    intro st st' h hk
    rw [consumePropList] at h
    cases hc : consumeProp root index fmark st p with
    | error e => rw [hc] at h; cases h
    | ok st2 =>
      rw [hc] at h
      exact ih h (consumeProp_not_contains hc hk)

theorem consumeProps_not_contains {root : HostPath} {index : Option Value}
    {fmark : Option Nat} {entryType : RecordType} {k : String} :
    ∀ {rows : List (RecordType × List ExpectedProperty)}
      {st st' : List (String × PropValue) × List (String × Node)},
      consumeProps root index fmark entryType rows st = .ok st' →
      dcontains k st.2 = false → dcontains k st'.2 = false := by
  intro rows
  induction rows with
  | nil =>
    intro st st' h hk
    rw [consumeProps] at h
    injection h with h
    rw [← h]; exact hk
  | cons row rest ih =>
    intro st st' h hk
    obtain ⟨t, eprops⟩ := row
    rw [consumeProps] at h
    by_cases hs : isSubclass entryType t = true
    · rw [if_pos hs] at h
      cases hc : consumePropList root index fmark eprops st with
      | error e => rw [hc] at h; cases h
      | ok st2 =>
        rw [hc] at h
        exact ih h (consumePropList_not_contains hc hk)
    · rw [if_neg hs] at h
      exact ih h hk

theorem string_append_left_cancel {a b c : String} (h : a ++ b = a ++ c) :
    b = c := by
  have hd : (a ++ b).data = (a ++ c).data := congrArg String.data h
  simp only [String.data_append] at hd
  cases b with
  | mk bd =>
    cases c with
    | mk cd =>
      have : bd = cd := List.append_cancel_left hd
      rw [this]

theorem mkRecord_recordType :
    ∀ (t : RecordType) (props : List (String × PropValue)) (rec : Record),
      mkRecord t props = .ok rec → rec.recordType = t := by
  intro t props rec h
  cases t <;> simp only [mkRecord] at h <;>
    (repeat' split at h) <;> (try cases h) <;> rfl

/-- **C4.** For every associative node carrying a `state` key with a
string scalar value: an unrecognized state is a fatal decode error whose
message names the offending value (and nothing was emitted before it);
a recognized state selects the mapped record type — any record the
decode produces has exactly that type — and the `state` key is consumed,
never reported as an unrecognized property. -/
theorem claim_c4_state_discriminator (root : HostPath)
    (spec : SerializedTypeSpecification) (pairs : List (Node × Node))
    (index : Option Value) (fmark : Option Nat)
    (sv : String) (c : Value) (smark : Nat)
    (hstate : dlookup "state" (buildPropTable pairs) =
      some (.scalar sv c smark)) :
    (dlookup sv spec.states = none →
      constructRecord root spec (some pairs) index fmark =
        (.error (.ctor ⟨"unsupported state " ++ sv, some smark⟩), [])) ∧
    (∀ t, dlookup sv spec.states = some t →
      ∀ res ws,
        constructRecord root spec (some pairs) index fmark = (res, ws) →
        (∀ rec, res = .ok rec → rec.recordType = t) ∧
        (∀ m', Warning.ctorWarn ("unrecognized property " ++ "state") m' ∉ ws)) := by
  constructor
  · intro hnone
    simp only [constructRecord, stateStep, hstate, hnone]
  · intro t ht res ws hcr
    have hstep : stateStep spec (buildPropTable pairs) =
        .ok (t, dremove "state" (buildPropTable pairs)) := by
      simp only [stateStep, hstate, ht]
    simp only [constructRecord, hstep] at hcr
    cases hcp : consumeProps root index fmark t spec.properties
        ([], dremove "state" (buildPropTable pairs)) with
    | error e =>
      rw [hcp] at hcr
      injection hcr with h1 h2
      constructor
      · intro rec hrec
        rw [← h1] at hrec
        cases hrec
      · intro m' hm
        rw [← h2] at hm
        cases hm
    | ok pr =>
      obtain ⟨props, leftover⟩ := pr
      rw [hcp] at hcr
      injection hcr with h1 h2
      constructor
      · intro rec hrec
        rw [← h1] at hrec
        exact mkRecord_recordType t props rec hrec
      · intro m' hm
        rw [← h2] at hm
        have hclean : dcontains "state" leftover = false := by
          have h0 : dcontains "state"
              (dremove "state" (buildPropTable pairs)) = false :=
            dcontains_dremove_self _ _
          exact @consumeProps_not_contains root index fmark t "state"
            spec.properties ([], dremove "state" (buildPropTable pairs))
            (props, leftover) hcp h0
        obtain ⟨kv, hkv, heq⟩ := List.mem_map.mp hm
        injection heq with hprob hmark
        have hk : kv.1 = "state" := string_append_left_cancel hprob
        have : dcontains "state" leftover = true := by
          simp only [dcontains, List.any_eq_true, decide_eq_true_eq]
          exact ⟨kv, hkv, hk⟩
        rw [this] at hclean
        cases hclean

/-- An element body with an unrecognized state. -/
def weirdStatePairs : List (Node × Node) :=
  [(.scalar "state" (.vstr "state") 1, .scalar "weird" (.vstr "weird") 2)]

/-- An element body with the recognized state `absent`. -/
def absentStatePairs : List (Node × Node) :=
  [(.scalar "state" (.vstr "state") 1, .scalar "absent" (.vstr "absent") 2)]

/-- Witness for C4: an unrecognized state is a fatal `ConstructorError`
naming it; the recognized `absent` state yields the mapped record type,
with no unrecognized-`state` diagnostic. -/
theorem claim_c4_state_discriminator_witness :
    dlookup "state" (buildPropTable weirdStatePairs) =
      some (.scalar "weird" (.vstr "weird") 2) ∧
    constructRecord hostRoot files_spec (some weirdStatePairs)
      (some (.vppath ⟨["/", "x"]⟩)) (some 0) =
      (.error (.ctor ⟨"unsupported state " ++ "weird", some 2⟩), []) ∧
    ((∀ rec, (Except.ok Record.absent : Except PyErr Record) = .ok rec →
        rec.recordType = .absentResourceT) ∧
      (∀ m', Warning.ctorWarn ("unrecognized property " ++ "state") m' ∉
        ([] : List Warning))) :=
  ⟨rfl,
   (claim_c4_state_discriminator hostRoot files_spec weirdStatePairs
     (some (.vppath ⟨["/", "x"]⟩)) (some 0) "weird" (.vstr "weird") 2 rfl).1
     rfl,
   (claim_c4_state_discriminator hostRoot files_spec absentStatePairs
     (some (.vppath ⟨["/", "x"]⟩)) (some 0) "absent" (.vstr "absent") 2 rfl).2
     .absentResourceT rfl (.ok Record.absent) [] rfl⟩

/-! ## C6: glob classification and absolute-path coercion -/

/-- **C6 counterexample.** The key `/etc/a]b` contains none of `*`, `?`,
`[` yet the code classifies it as a glob pattern (the membership test
iterates over the four characters of the string `'*?[]'`, `]`
included), so "glob exactly when it contains `*`, `?`, or `[`" is false. -/
theorem claim_c6_counterexample_bracket_close :
    (parse_path_node "/etc/a]b" 0).1 = Sum.inl "/etc/a]b" ∧
    "/etc/a]b".data.any (fun c => c == '*' || c == '?' || c == '[') = false := by
  constructor <;> rfl

theorem rootJoin_isAbsolute (p : PurePosixPath) :
    p.rootJoin.isAbsolute = true := by
  rw [PurePosixPath.rootJoin]
  by_cases h : p.isAbsolute = true
  · rw [if_pos h]; exact h
  · rw [if_neg h]; rfl

/-- **C6, amended.** A `files` key is classified as a glob pattern
exactly when it contains one of `*`, `?`, `[`, `]`; otherwise it is
parsed as a literal path and re-rooted to an absolute one.  A
non-absolute pattern or literal path is accepted with a non-fatal
diagnostic and coerced to absolute by prefixing `/`; in particular the
relative literal key `etc/foo` decodes to `/etc/foo` with a non-fatal
diagnostic. -/
theorem claim_c6_amended_path_classification (s : String) (m : Nat) :
    ((∃ pat ws, parse_path_node s m = (Sum.inl pat, ws)) ↔
      s.data.any (fun c => c == '*' || c == '?' || c == '[' || c == ']') = true) ∧
    (s.data.any (fun c => c == '*' || c == '?' || c == '[' || c == ']') = true →
      (s.data.head? = some '/' → parse_path_node s m = (Sum.inl s, [])) ∧
      (¬ s.data.head? = some '/' →
        parse_path_node s m = (Sum.inl ("/" ++ s),
          [.ctorWarn ("path " ++ s ++ " is not absolute") (some m)]))) ∧
    (s.data.any (fun c => c == '*' || c == '?' || c == '[' || c == ']') = false →
      parse_path_node s m =
        (Sum.inr (PurePosixPath.parse s).rootJoin,
         if ¬ (PurePosixPath.parse s).isAbsolute = true then
           [.ctorWarn ("path " ++ (PurePosixPath.parse s).toStr ++
             " is not absolute") (some m)]
         else []) ∧
      (PurePosixPath.parse s).rootJoin.isAbsolute = true) ∧
    parse_path_node "etc/foo" m =
      (Sum.inr ⟨["/", "etc", "foo"]⟩,
       [.ctorWarn "path etc/foo is not absolute" (some m)]) := by
  refine ⟨?_, ?_, ?_, ?_⟩
  · constructor
    · rintro ⟨pat, ws, hp⟩
      by_cases hg : s.data.any
          (fun c => c == '*' || c == '?' || c == '[' || c == ']') = true
      · exact hg
      · exfalso
        simp only [parse_path_node, hg, if_false, Bool.false_eq_true] at hp
        cases hp
    · intro hg
      rw [parse_path_node, if_pos hg]
      by_cases hs : s.data.head? = some '/'
      · rw [if_neg (by simpa using hs)]
        exact ⟨s, [], rfl⟩
      · rw [if_pos (by simpa using hs)]
        exact ⟨"/" ++ s,
          [.ctorWarn ("path " ++ s ++ " is not absolute") (some m)], rfl⟩
  · intro hg
    constructor
    · intro hs
      rw [parse_path_node, if_pos hg, if_neg (by simpa using hs)]
    · intro hs
      rw [parse_path_node, if_pos hg, if_pos (by simpa using hs)]
  · intro hg
    refine ⟨?_, rootJoin_isAbsolute _⟩
    rw [parse_path_node, if_neg (by simp [hg])]
  · rfl

/-- Witness for the amended C6: a relative glob pattern is coerced with a
diagnostic, and the relative literal `etc/foo` decodes to `/etc/foo`
with a diagnostic. -/
theorem claim_c6_amended_path_classification_witness :
    ("etc/*".data.any (fun c => c == '*' || c == '?' || c == '[' || c == ']')
      = true) ∧
    parse_path_node "etc/*" 0 = (Sum.inl ("/" ++ "etc/*"),
      [.ctorWarn ("path " ++ "etc/*" ++ " is not absolute") (some 0)]) ∧
    parse_path_node "etc/foo" 0 =
      (Sum.inr ⟨["/", "etc", "foo"]⟩,
       [.ctorWarn "path etc/foo is not absolute" (some 0)]) :=
  ⟨rfl,
   ((claim_c6_amended_path_classification "etc/*" 0).2.1 rfl).2 (by decide),
   (claim_c6_amended_path_classification "etc/*" 0).2.2.2⟩

/-! ## C5: one bad entry never aborts the document — only for the
`ConstructorError` hierarchy -/

theorem foldElems_cons {A : Type _}
    (step : Bundle → A → Except PyErr Bundle × List Warning)
    (b : Bundle) (e : A) (rest : List A) {b2 : Bundle} {ws : List Warning}
    (h : step b e = (.ok b2, ws)) :
    foldElems step b (e :: rest) =
      ((foldElems step b2 rest).1, ws ++ (foldElems step b2 rest).2) := by
  rw [foldElems, h]

theorem foldElems_cons_err {A : Type _}
    (step : Bundle → A → Except PyErr Bundle × List Warning)
    (b : Bundle) (e : A) (rest : List A) {er : PyErr} {ws : List Warning}
    (h : step b e = (.error er, ws)) :
    foldElems step b (e :: rest) = (.error er, ws) := by
  rw [foldElems, h]

theorem foldElems_append {A : Type _}
    (step : Bundle → A → Except PyErr Bundle × List Warning)
    (xs ys : List A) :
    ∀ b, foldElems step b (xs ++ ys) =
      (match (foldElems step b xs).1 with
       | .ok bx =>
         ((foldElems step bx ys).1,
          (foldElems step b xs).2 ++ (foldElems step bx ys).2)
       | .error _ => foldElems step b xs) := by
  induction xs with
  | nil =>
    intro b
    simp only [List.nil_append, foldElems, List.nil_append]
  | cons el rest ih =>
    intro b
    rcases hel : step b el with ⟨rese, wse⟩
    cases rese with
    | error er =>
      rw [List.cons_append, foldElems_cons_err step b el _ hel,
        foldElems_cons_err step b el rest hel]
    | ok b2 =>
      rw [List.cons_append, foldElems_cons step b el _ hel,
        foldElems_cons step b el rest hel, ih b2]
      cases hr : (foldElems step b2 rest).1 with
      | ok bx => simp only [List.append_assoc]
      | error er => simp only [hr]

/-- A `ConstructorError` from one `files` element is caught and becomes
a `FileOmittedWarning`, the bundle unchanged. -/
theorem processFileElem_ctor_err {root : HostPath} {b : Bundle} {e : Node}
    {err : CtorErrData} {wse : List Warning}
    (he : construct_file root e = (.error (.ctor err), wse)) :
    processFileElem root b e =
      (.ok b, wse ++ [.fileOmitted err.problem err.mark]) := by
  rw [processFileElem, he]

/-- A `ConstructorError` from one `packages` element is caught and
becomes a plain `ConstructorWarning`, the bundle unchanged. -/
theorem processPackageElem_ctor_err {root : HostPath} {b : Bundle} {e : Node}
    {err : CtorErrData} {wse : List Warning}
    (he : construct_package root e = (.error (.ctor err), wse)) :
    processPackageElem root b e =
      (.ok b, wse ++ [.ctorWarn err.problem err.mark]) := by
  rw [processPackageElem, he]

/-- A `ConstructorError` from one `users` element is caught and becomes
a plain `ConstructorWarning`, the bundle unchanged. -/
theorem processUserElem_ctor_err {root : HostPath} {b : Bundle} {e : Node}
    {err : CtorErrData} {wse : List Warning}
    (he : construct_user root e = (.error (.ctor err), wse)) :
    processUserElem root b e =
      (.ok b, wse ++ [.ctorWarn err.problem err.mark]) := by
  rw [processUserElem, he]

/-- Effect, inside any of the section loops, of one element whose step
leaves the bundle unchanged and only emits warnings (the caught-error
case of all three loops): the loop's bundle result is that of the same
element list without the element, and — once the loop reaches the
element — the step's diagnostic is among the loop's warnings. -/
theorem foldElems_elem_skipped
    (step : Bundle → Node → Except PyErr Bundle × List Warning)
    (xs ys : List Node) (e : Node) (wsE : List Warning) (w : Warning)
    (hw : w ∈ wsE) (helem : ∀ b : Bundle, step b e = (.ok b, wsE))
    (b : Bundle) :
    (foldElems step b (xs ++ e :: ys)).1 =
      (foldElems step b (xs ++ ys)).1 ∧
    (∀ bx wx, foldElems step b xs = (.ok bx, wx) →
      w ∈ (foldElems step b (xs ++ e :: ys)).2) := by
  have key : ∀ b2 : Bundle,
      foldElems step b2 (e :: ys) =
        ((foldElems step b2 ys).1, wsE ++ (foldElems step b2 ys).2) :=
    fun b2 => foldElems_cons _ b2 e ys (helem b2)
  constructor
  · rw [foldElems_append _ xs (e :: ys) b, foldElems_append _ xs ys b]
    cases hx : (foldElems step b xs).1 with
    | ok bx => simp only [key bx]
    | error er => simp only []
  · intro bx wx hpx
    rw [foldElems_append _ xs (e :: ys) b, hpx]
    simp [key bx, hw]

/-- The `files` section dispatch of `construct_bundle`. -/
theorem processSection_files (root : HostPath) (b : Bundle) (fc : Value)
    (km sm : Nat) (elems : List Node) :
    processSection root b (.scalar "files" fc km) (.sequence elems sm) =
      processFiles root b elems := by
  rw [processSection]
  simp

/-- The `packages` section dispatch of `construct_bundle`. -/
theorem processSection_packages (root : HostPath) (b : Bundle) (fc : Value)
    (km sm : Nat) (elems : List Node) :
    processSection root b (.scalar "packages" fc km) (.sequence elems sm) =
      processPackages root b elems := by
  rw [processSection]
  simp

/-- The `users` section dispatch of `construct_bundle`. -/
theorem processSection_users (root : HostPath) (b : Bundle) (fc : Value)
    (km sm : Nat) (elems : List Node) :
    processSection root b (.scalar "users" fc km) (.sequence elems sm) =
      processUsers root b elems := by
  rw [processSection]
  simp

/-- Document-level form of `foldElems_elem_skipped`, for a section whose
key dispatches to the loop of the given per-element step: the document's
bundle result ignores the skipped element, and under a reachability
hypothesis (the earlier sections and the earlier elements of this
section ran without an uncaught exception) the diagnostic is among the
document's warnings. -/
theorem construct_bundle_elem_skipped (root : HostPath)
    (st : Bundle → Node → Except PyErr Bundle × List Warning)
    (pre post : List (Node × Node)) (k : Node) (sm dm : Nat)
    (xs ys : List Node) (e : Node) (wsE : List Warning) (w : Warning)
    (hw : w ∈ wsE)
    (hdW : ∀ b : Bundle,
      processSection root b k (.sequence (xs ++ e :: ys) sm) =
        foldElems st b (xs ++ e :: ys))
    (hdO : ∀ b : Bundle,
      processSection root b k (.sequence (xs ++ ys) sm) =
        foldElems st b (xs ++ ys))
    (helem : ∀ b : Bundle, st b e = (.ok b, wsE)) :
    (construct_bundle root (.mapping (pre ++
        (k, Node.sequence (xs ++ e :: ys) sm) :: post) dm)).1 =
      (construct_bundle root (.mapping (pre ++
        (k, Node.sequence (xs ++ ys) sm) :: post) dm)).1 ∧
    (∀ bp wp bx wx,
      processSections root {} pre = (.ok bp, wp) →
      foldElems st bp xs = (.ok bx, wx) →
      w ∈ (construct_bundle root (.mapping (pre ++
        (k, Node.sequence (xs ++ e :: ys) sm) :: post) dm)).2) := by
  constructor
  · show (processSections root {} (pre ++
        (k, Node.sequence (xs ++ e :: ys) sm) :: post)).1 =
      (processSections root {} (pre ++
        (k, Node.sequence (xs ++ ys) sm) :: post)).1
    unfold processSections
    rw [foldElems_append _ pre _ {}, foldElems_append _ pre _ {}]
    cases hpre : (foldElems
        (fun b kv => processSection root b kv.1 kv.2) {} pre).1 with
    | error er => simp only []
    | ok bp =>
      simp only []
      rcases hW : foldElems st bp (xs ++ e :: ys) with ⟨r1, w1⟩
      rcases hO : foldElems st bp (xs ++ ys) with ⟨r2, w2⟩
      have h12 : r1 = r2 := by
        have := (foldElems_elem_skipped st xs ys e wsE w hw helem bp).1
        rw [hW, hO] at this
        exact this
      subst h12
      cases r1 with
      | ok b2 =>
        rw [foldElems_cons _ bp _ post ((hdW bp).trans hW),
          foldElems_cons _ bp _ post ((hdO bp).trans hO)]
      | error er =>
        rw [foldElems_cons_err _ bp _ post ((hdW bp).trans hW),
          foldElems_cons_err _ bp _ post ((hdO bp).trans hO)]
  · intro bp wp bx wx hp hx
    have hmem : w ∈ (foldElems st bp (xs ++ e :: ys)).2 :=
      (foldElems_elem_skipped st xs ys e wsE w hw helem bp).2 bx wx hx
    show w ∈ (processSections root {} (pre ++
      (k, Node.sequence (xs ++ e :: ys) sm) :: post)).2
    unfold processSections
    rw [foldElems_append _ pre _ {}]
    have hp' : foldElems
        (fun b kv => processSection root b kv.1 kv.2) {} pre = (.ok bp, wp) := hp
    rw [hp']
    simp only []
    rcases hW : foldElems st bp (xs ++ e :: ys) with ⟨r1, w1⟩
    rw [hW] at hmem
    cases r1 with
    | ok b2 =>
      rw [foldElems_cons _ bp _ post ((hdW bp).trans hW)]
      simp only [List.mem_append]
      exact Or.inr (Or.inl hmem)
    | error er =>
      rw [foldElems_cons_err _ bp _ post ((hdW bp).trans hW)]
      simp only [List.mem_append]
      exact Or.inr hmem

/-- **C5, amended.** For every document and every element of its
`files`, `packages` or `users` sections, a fatal decode error in the
`ConstructorError` hierarchy raised while decoding that single element
is caught by Bundle Document Assembly and reported as a non-fatal
diagnostic — the entry-omitted `FileOmittedWarning` for a `files`
element, a plain `ConstructorWarning` for a `packages` or `users`
element — and only that element is skipped: the document's bundle
result equals that of the same document without the element.  The
document as a whole succeeds only as far as no element raises outside
the `ConstructorError` hierarchy (the device `TypeError` of the C5
counterexample aborts the whole document); the diagnostic-membership
conclusions therefore assume processing reached the element. -/
theorem claim_c5_amended_decode_error_caught (root : HostPath)
    (pre post : List (Node × Node)) (xs ys : List Node) (e : Node)
    (err : CtorErrData) (wse : List Warning) (fc : Value) (km sm dm : Nat) :
    (construct_file root e = (.error (.ctor err), wse) →
      (construct_bundle root (.mapping (pre ++
          (Node.scalar "files" fc km, Node.sequence (xs ++ e :: ys) sm) :: post)
          dm)).1 =
        (construct_bundle root (.mapping (pre ++
          (Node.scalar "files" fc km, Node.sequence (xs ++ ys) sm) :: post)
          dm)).1 ∧
      (∀ bp wp bx wx,
        processSections root {} pre = (.ok bp, wp) →
        processFiles root bp xs = (.ok bx, wx) →
        Warning.fileOmitted err.problem err.mark ∈
          (construct_bundle root (.mapping (pre ++
            (Node.scalar "files" fc km, Node.sequence (xs ++ e :: ys) sm) :: post)
            dm)).2)) ∧
    (construct_package root e = (.error (.ctor err), wse) →
      (construct_bundle root (.mapping (pre ++
          (Node.scalar "packages" fc km, Node.sequence (xs ++ e :: ys) sm) :: post)
          dm)).1 =
        (construct_bundle root (.mapping (pre ++
          (Node.scalar "packages" fc km, Node.sequence (xs ++ ys) sm) :: post)
          dm)).1 ∧
      (∀ bp wp bx wx,
        processSections root {} pre = (.ok bp, wp) →
        processPackages root bp xs = (.ok bx, wx) →
        Warning.ctorWarn err.problem err.mark ∈
          (construct_bundle root (.mapping (pre ++
            (Node.scalar "packages" fc km, Node.sequence (xs ++ e :: ys) sm) :: post)
            dm)).2)) ∧
    (construct_user root e = (.error (.ctor err), wse) →
      (construct_bundle root (.mapping (pre ++
          (Node.scalar "users" fc km, Node.sequence (xs ++ e :: ys) sm) :: post)
          dm)).1 =
        (construct_bundle root (.mapping (pre ++
          (Node.scalar "users" fc km, Node.sequence (xs ++ ys) sm) :: post)
          dm)).1 ∧
      (∀ bp wp bx wx,
        processSections root {} pre = (.ok bp, wp) →
        processUsers root bp xs = (.ok bx, wx) →
        Warning.ctorWarn err.problem err.mark ∈
          (construct_bundle root (.mapping (pre ++
            (Node.scalar "users" fc km, Node.sequence (xs ++ e :: ys) sm) :: post)
            dm)).2)) := by
  refine ⟨fun he => ?_, fun he => ?_, fun he => ?_⟩
  · exact construct_bundle_elem_skipped root (processFileElem root) pre post
      (.scalar "files" fc km) sm dm xs ys e
      (wse ++ [Warning.fileOmitted err.problem err.mark])
      (Warning.fileOmitted err.problem err.mark) (by simp)
      (fun b => processSection_files root b fc km sm (xs ++ e :: ys))
      (fun b => processSection_files root b fc km sm (xs ++ ys))
      (fun b => processFileElem_ctor_err he)
  · exact construct_bundle_elem_skipped root (processPackageElem root) pre post
      (.scalar "packages" fc km) sm dm xs ys e
      (wse ++ [Warning.ctorWarn err.problem err.mark])
      (Warning.ctorWarn err.problem err.mark) (by simp)
      (fun b => processSection_packages root b fc km sm (xs ++ e :: ys))
      (fun b => processSection_packages root b fc km sm (xs ++ ys))
      (fun b => processPackageElem_ctor_err he)
  · exact construct_bundle_elem_skipped root (processUserElem root) pre post
      (.scalar "users" fc km) sm dm xs ys e
      (wse ++ [Warning.ctorWarn err.problem err.mark])
      (Warning.ctorWarn err.problem err.mark) (by simp)
      (fun b => processSection_users root b fc km sm (xs ++ e :: ys))
      (fun b => processSection_users root b fc km sm (xs ++ ys))
      (fun b => processUserElem_ctor_err he)

/-- A `files` element that is neither a scalar nor a mapping: decoding
it raises the catchable fatal decode error. -/
def badElem : Node := .sequence [] 7

/-- A well-formed `character-device` element, whose decode raises the
uncatchable `TypeError` of C3. -/
def deviceElem : Node :=
  .mapping [(.scalar "/dev/x" (.vstr "/dev/x") 8, .mapping deviceNodePairs 8)] 8

/-- A document whose `files` section holds one malformed element
(caught, per the claim) followed by one device element. -/
def doc5 : Node :=
  .mapping [(.scalar "files" (.vstr "files") 9,
             .sequence [badElem, deviceElem] 9)] 10

/-- **C5 counterexample.** In `doc5`, the malformed first element raises
a fatal decode error, which the claim says leaves a document that still
succeeds as a whole; but decoding the second (device) element raises a
`TypeError` outside the caught hierarchy, so `construct_bundle` of the
document fails — "all other elements are still decoded and the document
as a whole succeeds" is false as stated. -/
theorem claim_c5_counterexample_doc_aborts :
    (construct_file hostRoot badElem).1 =
      .error (.ctor ⟨"expected a scalar or a mapping, but found sequence",
        some 7⟩) ∧
    (construct_bundle hostRoot doc5).1 =
      .error (.py "TypeError: Device.__init__ missing required positional arguments: devmajor and devminor") := by
  constructor <;> rfl

/-- Witness for the amended C5 at one-element `files`, `packages` and
`users` documents, the malformed element raising the caught fatal
decode error in each. -/
theorem claim_c5_amended_decode_error_caught_witness :
    construct_file hostRoot badElem =
      (.error (.ctor ⟨"expected a scalar or a mapping, but found sequence",
        some 7⟩), []) ∧
    construct_package hostRoot badElem =
      (.error (.ctor ⟨"expected a scalar or a mapping, but found sequence",
        some 7⟩), []) ∧
    construct_user hostRoot badElem =
      (.error (.ctor ⟨"expected a scalar or a mapping, but found sequence",
        some 7⟩), []) ∧
    ((construct_bundle hostRoot (.mapping ([] ++
        (Node.scalar "files" Value.vnull 9,
         Node.sequence ([] ++ badElem :: []) 9) :: []) 10)).1 =
      (construct_bundle hostRoot (.mapping ([] ++
        (Node.scalar "files" Value.vnull 9,
         Node.sequence ([] ++ ([] : List Node)) 9) :: []) 10)).1 ∧
     Warning.fileOmitted "expected a scalar or a mapping, but found sequence"
        (some 7) ∈
      (construct_bundle hostRoot (.mapping ([] ++
        (Node.scalar "files" Value.vnull 9,
         Node.sequence ([] ++ badElem :: []) 9) :: []) 10)).2) ∧
    ((construct_bundle hostRoot (.mapping ([] ++
        (Node.scalar "packages" Value.vnull 9,
         Node.sequence ([] ++ badElem :: []) 9) :: []) 10)).1 =
      (construct_bundle hostRoot (.mapping ([] ++
        (Node.scalar "packages" Value.vnull 9,
         Node.sequence ([] ++ ([] : List Node)) 9) :: []) 10)).1 ∧
     Warning.ctorWarn "expected a scalar or a mapping, but found sequence"
        (some 7) ∈
      (construct_bundle hostRoot (.mapping ([] ++
        (Node.scalar "packages" Value.vnull 9,
         Node.sequence ([] ++ badElem :: []) 9) :: []) 10)).2) ∧
    ((construct_bundle hostRoot (.mapping ([] ++
        (Node.scalar "users" Value.vnull 9,
         Node.sequence ([] ++ badElem :: []) 9) :: []) 10)).1 =
      (construct_bundle hostRoot (.mapping ([] ++
        (Node.scalar "users" Value.vnull 9,
         Node.sequence ([] ++ ([] : List Node)) 9) :: []) 10)).1 ∧
     Warning.ctorWarn "expected a scalar or a mapping, but found sequence"
        (some 7) ∈
      (construct_bundle hostRoot (.mapping ([] ++
        (Node.scalar "users" Value.vnull 9,
         Node.sequence ([] ++ badElem :: []) 9) :: []) 10)).2) :=
  ⟨rfl, rfl, rfl,
   ⟨((claim_c5_amended_decode_error_caught hostRoot [] [] [] [] badElem
       ⟨"expected a scalar or a mapping, but found sequence", some 7⟩ []
       Value.vnull 9 9 10).1 rfl).1,
    ((claim_c5_amended_decode_error_caught hostRoot [] [] [] [] badElem
       ⟨"expected a scalar or a mapping, but found sequence", some 7⟩ []
       Value.vnull 9 9 10).1 rfl).2 {} [] {} [] rfl rfl⟩,
   ⟨((claim_c5_amended_decode_error_caught hostRoot [] [] [] [] badElem
       ⟨"expected a scalar or a mapping, but found sequence", some 7⟩ []
       Value.vnull 9 9 10).2.1 rfl).1,
    ((claim_c5_amended_decode_error_caught hostRoot [] [] [] [] badElem
       ⟨"expected a scalar or a mapping, but found sequence", some 7⟩ []
       Value.vnull 9 9 10).2.1 rfl).2 {} [] {} [] rfl rfl⟩,
   ⟨((claim_c5_amended_decode_error_caught hostRoot [] [] [] [] badElem
       ⟨"expected a scalar or a mapping, but found sequence", some 7⟩ []
       Value.vnull 9 9 10).2.2 rfl).1,
    ((claim_c5_amended_decode_error_caught hostRoot [] [] [] [] badElem
       ⟨"expected a scalar or a mapping, but found sequence", some 7⟩ []
       Value.vnull 9 9 10).2.2 rfl).2 {} [] {} [] rfl rfl⟩⟩

end Conf
